import Mathlib

/-!
Verification development for the `trilateration` repository
(`src/ml-levenberg-marquardt.js`): a Levenberg-Marquardt non-linear
least-squares curve fitter.

The embedding uses exact rational arithmetic (`ℚ`) for the numeric engine.
JavaScript `Array`s of numbers appear either as `List ℚ` (in the option
normalizer, where lengths are data) or as `Fin n → ℚ` (in the numeric loop,
where all accesses are in range).  `ml-matrix` matrices become Mathlib
matrices over `ℚ`; the dense inverse `mlMatrix.inverse` becomes
`det⁻¹ • adjugate`, which agrees with the mathematical inverse whenever the
determinant is nonzero and is the zero matrix otherwise.  Wall-clock time
(`Date.now`) is abstracted by a boolean oracle consulted once per iteration,
mirroring the `checkTimeout` closure.  A second, NaN-aware copy of the
numeric loop (over `Option ℚ`, `none` playing the role of a non-finite
value) appears further below to settle the divergence-handling claim.
-/

namespace LM

/-- `Number.MAX_SAFE_INTEGER`, the default upper parameter bound. -/
def maxSafeInteger : ℚ := 2 ^ 53 - 1

/-- `Number.MIN_SAFE_INTEGER`, the default lower parameter bound. -/
def minSafeInteger : ℚ := -(2 ^ 53 - 1)

/-- Source: `errorCalculation(data, parameters, parameterizedFunction,
weightSquare)` — the weighted sum of squared residuals
`Σᵢ (y i - f(params)(x i))² / weightSquare i`. -/
def errorCalculation {n p : ℕ} (x y : Fin n → ℚ) (parameters : Fin p → ℚ)
    (parameterizedFunction : (Fin p → ℚ) → ℚ → ℚ) (weightSquare : Fin n → ℚ) : ℚ :=
  ∑ i : Fin n, (y i - parameterizedFunction parameters (x i)) ^ 2 / weightSquare i

/-- `Matrix.scale('row', { scale: w })` of `ml-matrix`: multiply row `i` of a
matrix by `w i`. -/
def scaleRows {m k : ℕ} (w : Fin m → ℚ) (M : Matrix (Fin m) (Fin k) ℚ) :
    Matrix (Fin m) (Fin k) ℚ :=
  Matrix.of fun i j => w i * M i j

/-- `mlMatrix.inverse`, embedded as the adjugate formula.  For an invertible
matrix this is the true inverse; the singular case (where the floating-point
code would produce non-finite garbage) collapses to the zero matrix because
`(0 : ℚ)⁻¹ = 0`. -/
def matInv {q : ℕ} (A : Matrix (Fin q) (Fin q) ℚ) : Matrix (Fin q) (Fin q) ℚ :=
  A.det⁻¹ • A.adjugate

theorem matInv_eq_inv {q : ℕ} (A : Matrix (Fin q) (Fin q) ℚ) : matInv A = A⁻¹ := by
  rw [matInv, Matrix.inv_def, Ring.inverse_eq_inv]

/-- The forward- or central-difference row that `gradientFunction` writes for
an active parameter `param` (one entry per sample point).  Forward:
`(evaluatedData j - f(params + δ·e_param)(x j)) / δ`; central:
`(f(params - δ·e_param)(x j) - f(params + δ·e_param)(x j)) / (2δ)`. -/
def gradientRow {n p : ℕ} (x : Fin n → ℚ) (evaluatedData : Fin n → ℚ)
    (params : Fin p → ℚ) (gradientDifference : Fin p → ℚ)
    (paramFunction : (Fin p → ℚ) → ℚ → ℚ) (centralDifference : Bool)
    (param : Fin p) : Fin n → ℚ :=
  let delta := gradientDifference param
  let funcParam := paramFunction (Function.update params param (params param + delta))
  if ¬centralDifference then
    fun point => (evaluatedData point - funcParam (x point)) / delta
  else
    let funcParam2 := paramFunction (Function.update params param (params param - delta))
    fun point => (funcParam2 (x point) - funcParam (x point)) / (2 * delta)

/-- One turn of `gradientFunction`'s loop: skip a zero-step parameter,
otherwise write that parameter's difference row at the next free row index
and advance the index. -/
def gradientStep {n p : ℕ} (x : Fin n → ℚ) (evaluatedData : Fin n → ℚ)
    (params : Fin p → ℚ) (gradientDifference : Fin p → ℚ)
    (paramFunction : (Fin p → ℚ) → ℚ → ℚ) (centralDifference : Bool)
    (st : ℕ × Matrix (Fin p) (Fin n) ℚ) (param : Fin p) :
    ℕ × Matrix (Fin p) (Fin n) ℚ :=
  if gradientDifference param = 0 then st
  else
    (st.1 + 1,
      if h : st.1 < p then
        st.2.updateRow ⟨st.1, h⟩
          (gradientRow x evaluatedData params gradientDifference paramFunction
            centralDifference param)
      else st.2)

/-- Source: `gradientFunction(data, evaluatedData, params, gradientDifference,
paramFunction, centralDifference)`.  The result starts as
`Matrix.zeros(nbParams, nbPoints)`; the loop walks the parameters in order,
skips those with a zero finite-difference step, and writes the difference row
of each remaining parameter at the next free row index (`rowIndex`). -/
def gradientFunction {n p : ℕ} (x : Fin n → ℚ) (evaluatedData : Fin n → ℚ)
    (params : Fin p → ℚ) (gradientDifference : Fin p → ℚ)
    (paramFunction : (Fin p → ℚ) → ℚ → ℚ) (centralDifference : Bool) :
    Matrix (Fin p) (Fin n) ℚ :=
  (List.foldl
    (gradientStep x evaluatedData params gradientDifference paramFunction centralDifference)
    (0, 0) (List.finRange p)).2

/-- Source: `matrixFunction(data, evaluatedData)` — the residual column
vector `y - evaluatedData`. -/
def matrixFunction {n : ℕ} (y : Fin n → ℚ) (evaluatedData : Fin n → ℚ) :
    Matrix (Fin n) (Fin 1) ℚ :=
  Matrix.of fun point _ => y point - evaluatedData point

/-- The fully resolved numeric state consumed by the optimization loop: the
fields of the bundle that `checkOptions` returns, with the sample set and the
model function attached, sizes made explicit, and `checkTimeout` abstracted
into a per-iteration oracle `clock` (the wall clock is outside the model). -/
structure LMConfig (n p : ℕ) where
  x : Fin n → ℚ
  y : Fin n → ℚ
  parameterizedFunction : (Fin p → ℚ) → ℚ → ℚ
  weightSquare : Fin n → ℚ
  minValues : Fin p → ℚ
  maxValues : Fin p → ℚ
  parameters : Fin p → ℚ
  damping : ℚ
  dampingStepUp : ℚ
  dampingStepDown : ℚ
  maxIterations : ℕ
  errorTolerance : ℚ
  centralDifference : Bool
  gradientDifference : Fin p → ℚ
  improvementThreshold : ℚ
  clock : ℕ → Bool

/-- The loop's mutable scalars and the parameter vector. -/
structure LMState (p : ℕ) where
  parameters : Fin p → ℚ
  error : ℚ
  damping : ℚ

/-- The model evaluated at every sample point (`evaluatedData` in `step`). -/
def evaluatedData {n p : ℕ} (cfg : LMConfig n p) (params : Fin p → ℚ) : Fin n → ℚ :=
  fun i => cfg.parameterizedFunction params (cfg.x i)

/-- The damped normal matrix assembled inside `step`:
`Matrix.eye(parLen, parLen, damping).add(J.mmul(Jᵗ.scale('row', weightSquare)))`. -/
def stepMatrixA {n p : ℕ} (cfg : LMConfig n p) (params : Fin p → ℚ) (damping : ℚ) :
    Matrix (Fin p) (Fin p) ℚ :=
  let gradientFunc := gradientFunction cfg.x (evaluatedData cfg params) params
    cfg.gradientDifference cfg.parameterizedFunction cfg.centralDifference
  damping • (1 : Matrix (Fin p) (Fin p) ℚ) +
    gradientFunc * scaleRows cfg.weightSquare gradientFunc.transpose

/-- `jacobianWeigthResidualError` of `step`: the Jacobian applied to the
row-weighted residual column. -/
def stepJWRE {n p : ℕ} (cfg : LMConfig n p) (params : Fin p → ℚ) :
    Matrix (Fin p) (Fin 1) ℚ :=
  let gradientFunc := gradientFunction cfg.x (evaluatedData cfg params) params
    cfg.gradientDifference cfg.parameterizedFunction cfg.centralDifference
  gradientFunc * scaleRows cfg.weightSquare (matrixFunction cfg.y (evaluatedData cfg params))

/-- `perturbations` of `step`: the inverted normal matrix applied to the
weighted Jacobian–residual product. -/
def stepPerturbations {n p : ℕ} (cfg : LMConfig n p) (params : Fin p → ℚ) (damping : ℚ) :
    Matrix (Fin p) (Fin 1) ℚ :=
  matInv (stepMatrixA cfg params damping) * stepJWRE cfg params

/-- The parameter update of an iteration: for each `k`,
`parameters[k] = Math.min(Math.max(minValues[k], parameters[k] - perturbations.get(k, 0)), maxValues[k])`. -/
def lmNewParams {n p : ℕ} (cfg : LMConfig n p) (s : LMState p) : Fin p → ℚ :=
  fun k =>
    min (max (cfg.minValues k) (s.parameters k - stepPerturbations cfg s.parameters s.damping k 0))
      (cfg.maxValues k)

/-- The error recomputed on the clamped trial parameters. -/
def lmNewError {n p : ℕ} (cfg : LMConfig n p) (s : LMState p) : ℚ :=
  errorCalculation cfg.x cfg.y (lmNewParams cfg s) cfg.parameterizedFunction cfg.weightSquare

/-- The denominator of the improvement metric:
`perturbations.transpose().mmul(perturbations.mulS(damping).add(jacobianWeigthResidualError)).get(0, 0)`. -/
def lmDenominator {n p : ℕ} (cfg : LMConfig n p) (s : LMState p) : ℚ :=
  let perturbations := stepPerturbations cfg s.parameters s.damping
  (perturbations.transpose * (s.damping • perturbations + stepJWRE cfg s.parameters)) 0 0

/-- `improvementMetric = (previousError - error) / denominator` (Marquardt's
gain ratio; in the exact-arithmetic model a zero denominator yields `0`). -/
def lmMetric {n p : ℕ} (cfg : LMConfig n p) (s : LMState p) : ℚ :=
  (s.error - lmNewError cfg s) / lmDenominator cfg s

/-- One body execution of the `for` loop of `levenbergMarquardt` (for the
exact-arithmetic model, where `isNaN(error)` is always false): update and
clamp the parameters, rescore, accept or reject by the gain ratio, adapt the
damping, then consult the timeout oracle — an expired clock throws. -/
def lmIter {n p : ℕ} (cfg : LMConfig n p) (s : LMState p) (iteration : ℕ) :
    Except String (LMState p) :=
  let newParams := lmNewParams cfg s
  let newState : LMState p :=
    if lmMetric cfg s > cfg.improvementThreshold then
      { parameters := newParams
        error := lmNewError cfg s
        damping := max (s.damping / cfg.dampingStepDown) (1 / 10 ^ 7) }
    else
      { parameters := newParams
        error := s.error
        damping := min (s.damping * cfg.dampingStepUp) (10 ^ 7) }
  if cfg.clock iteration then
    Except.error "The execution time is over"
  else
    Except.ok newState

/-- The `for` loop of `levenbergMarquardt`, with the remaining iteration
budget `maxIterations - iteration` as structural fuel: stop as soon as
`error <= errorTolerance` or the budget is exhausted, otherwise run one body
and continue. -/
def lmLoop {n p : ℕ} (cfg : LMConfig n p) (s : LMState p) (iteration : ℕ) :
    (fuel : ℕ) → Except String (LMState p × ℕ)
  | 0 => Except.ok (s, iteration)
  | fuel + 1 =>
    if s.error ≤ cfg.errorTolerance then Except.ok (s, iteration)
    else
      match lmIter cfg s iteration with
      | Except.error e => Except.error e
      | Except.ok s' => lmLoop cfg s' (iteration + 1) fuel

/-- The numeric core of `levenbergMarquardt` once options are resolved:
compute the initial error, run the loop, and package
`{parameterValues, parameterError, iterations}`. -/
def lmRun {n p : ℕ} (cfg : LMConfig n p) : Except String ((Fin p → ℚ) × ℚ × ℕ) :=
  let error := errorCalculation cfg.x cfg.y cfg.parameters cfg.parameterizedFunction
    cfg.weightSquare
  match lmLoop cfg ⟨cfg.parameters, error, cfg.damping⟩ 0 cfg.maxIterations with
  | Except.error e => Except.error e
  | Except.ok (s, iteration) => Except.ok (s.parameters, s.error, iteration)

/-- The state in which the loop body is entered at each iteration index:
`lmStates cfg i = some s` exactly when iteration `i` executes, entering with
state `s` (so `s.damping` is the damping handed to the step solver there).
`none` means the loop never reaches iteration `i` (initial convergence,
exhausted budget, convergence after an earlier body, or a thrown timeout). -/
def lmStates {n p : ℕ} (cfg : LMConfig n p) : ℕ → Option (LMState p)
  | 0 =>
    let error := errorCalculation cfg.x cfg.y cfg.parameters cfg.parameterizedFunction
      cfg.weightSquare
    if error ≤ cfg.errorTolerance ∨ cfg.maxIterations = 0 then none
    else some ⟨cfg.parameters, error, cfg.damping⟩
  | i + 1 =>
    (lmStates cfg i).bind fun s =>
      (lmIter cfg s i).toOption.bind fun s' =>
        if s'.error ≤ cfg.errorTolerance ∨ ¬(i + 1 < cfg.maxIterations) then none
        else some s'

theorem entry_transpose_mul_self {p : ℕ} (P : Matrix (Fin p) (Fin 1) ℚ) :
    (P.transpose * P) 0 0 = ∑ k, P k 0 ^ 2 := by
  simp [Matrix.mul_apply, sq]

theorem scaleRows_eq_diagonal_mul {m k : ℕ} (w : Fin m → ℚ) (M : Matrix (Fin m) (Fin k) ℚ) :
    scaleRows w M = Matrix.diagonal w * M := by
  ext i j
  simp [scaleRows, Matrix.diagonal_mul]

theorem quadForm_nonneg {n p : ℕ} (J : Matrix (Fin p) (Fin n) ℚ)
    (v : Matrix (Fin p) (Fin 1) ℚ) (w : Fin n → ℚ) (hw : ∀ i, 0 ≤ w i) :
    0 ≤ (v.transpose * (J * scaleRows w J.transpose) * v) 0 0 := by
  have hq : v.transpose * (J * scaleRows w J.transpose) * v =
      (J.transpose * v).transpose * (Matrix.diagonal w * (J.transpose * v)) := by
    rw [scaleRows_eq_diagonal_mul, Matrix.transpose_mul, Matrix.transpose_transpose]
    simp only [Matrix.mul_assoc]
  rw [hq, Matrix.mul_apply]
  refine Finset.sum_nonneg fun i _ => ?_
  have : (Matrix.diagonal w * (J.transpose * v)) i 0 = w i * (J.transpose * v) i 0 := by
    simp [Matrix.diagonal_mul]
  rw [this, Matrix.transpose_apply]
  have := mul_self_nonneg ((J.transpose * v) i 0)
  nlinarith [hw i]

theorem lmDenominator_nonneg {n p : ℕ} (cfg : LMConfig n p) (s : LMState p)
    (hd : 0 ≤ s.damping) (hw : ∀ i, 0 ≤ cfg.weightSquare i) :
    0 ≤ lmDenominator cfg s := by
  set A := stepMatrixA cfg s.parameters s.damping with hA
  set g := stepJWRE cfg s.parameters with hg
  set P := stepPerturbations cfg s.parameters s.damping with hP
  have hsq : 0 ≤ (P.transpose * P) 0 0 := by
    rw [entry_transpose_mul_self]
    exact Finset.sum_nonneg fun k _ => sq_nonneg _
  have hsplit : lmDenominator cfg s =
      s.damping * (P.transpose * P) 0 0 + (P.transpose * g) 0 0 := by
    rw [lmDenominator]
    rw [Matrix.mul_add, Matrix.mul_smul, Matrix.add_apply, Matrix.smul_apply, smul_eq_mul]
  rw [hsplit]
  by_cases hdet : A.det = 0
  · have hinv : matInv A = 0 := by
      rw [matInv, hdet, inv_zero, zero_smul]
    have hP0 : P = 0 := by
      rw [hP, stepPerturbations, ← hA, ← hg, hinv, Matrix.zero_mul]
    rw [hP0]
    simp
  · have hAP : A * P = g := by
      rw [hP, stepPerturbations, ← hA, ← hg, matInv_eq_inv, ← Matrix.mul_assoc,
        Matrix.mul_nonsing_inv A (isUnit_iff_ne_zero.mpr hdet), Matrix.one_mul]
    have hPg : (P.transpose * g) 0 0 =
        s.damping * (P.transpose * P) 0 0 +
          (P.transpose *
            (gradientFunction cfg.x (evaluatedData cfg s.parameters) s.parameters
              cfg.gradientDifference cfg.parameterizedFunction cfg.centralDifference *
             scaleRows cfg.weightSquare
              (gradientFunction cfg.x (evaluatedData cfg s.parameters) s.parameters
                cfg.gradientDifference cfg.parameterizedFunction
                cfg.centralDifference).transpose) * P) 0 0 := by
      rw [← hAP, hA, stepMatrixA]
      rw [Matrix.add_mul, Matrix.mul_add, Matrix.smul_mul, Matrix.one_mul, Matrix.mul_smul,
        Matrix.add_apply, Matrix.smul_apply, smul_eq_mul, ← Matrix.mul_assoc]
    rw [hPg]
    have hquad := quadForm_nonneg
      (gradientFunction cfg.x (evaluatedData cfg s.parameters) s.parameters
        cfg.gradientDifference cfg.parameterizedFunction cfg.centralDifference)
      P cfg.weightSquare hw
    nlinarith

/-- An executed loop body can only lower the recorded error (accepted steps
strictly, rejected ones keep it), provided the weights and the gain-ratio
threshold are nonnegative and the incoming damping is nonnegative. -/
theorem lmIter_error_le {n p : ℕ} (cfg : LMConfig n p) (s : LMState p) (i : ℕ)
    (s' : LMState p) (hw : ∀ j, 0 ≤ cfg.weightSquare j)
    (hthr : 0 ≤ cfg.improvementThreshold) (hd : 0 ≤ s.damping)
    (h : lmIter cfg s i = Except.ok s') : s'.error ≤ s.error := by
  simp only [lmIter] at h
  by_cases hclk : cfg.clock i = true
  · rw [if_pos hclk] at h
    exact absurd h (by simp)
  · rw [if_neg hclk] at h
    have h2 := Except.ok.inj h
    by_cases hacc : lmMetric cfg s > cfg.improvementThreshold
    · rw [if_pos hacc] at h2
      have herr : s'.error = lmNewError cfg s := by rw [← h2]
      have hden := lmDenominator_nonneg cfg s hd hw
      rcases lt_or_eq_of_le hden with hpos | hzero
      · have hnum : 0 < s.error - lmNewError cfg s := by
          rw [lmMetric] at hacc
          have h1 : cfg.improvementThreshold * lmDenominator cfg s <
              s.error - lmNewError cfg s := (lt_div_iff₀ hpos).mp hacc
          nlinarith
        rw [herr]; linarith
      · rw [lmMetric, ← hzero, div_zero] at hacc
        exact absurd hacc (not_lt.mpr hthr)
    · rw [if_neg hacc] at h2
      have : s'.error = s.error := by rw [← h2]
      exact le_of_eq this

/-- An executed loop body keeps the damping strictly positive when
`dampingStepUp` is positive. -/
theorem lmIter_damping_pos {n p : ℕ} (cfg : LMConfig n p) (s : LMState p) (i : ℕ)
    (s' : LMState p) (hd : 0 < s.damping) (hup : 0 < cfg.dampingStepUp)
    (h : lmIter cfg s i = Except.ok s') : 0 < s'.damping := by
  simp only [lmIter] at h
  by_cases hclk : cfg.clock i = true
  · rw [if_pos hclk] at h
    exact absurd h (by simp)
  · rw [if_neg hclk] at h
    have h2 := Except.ok.inj h
    by_cases hacc : lmMetric cfg s > cfg.improvementThreshold
    · rw [if_pos hacc] at h2
      have hdmp : s'.damping = max (s.damping / cfg.dampingStepDown) (1 / 10 ^ 7) := by
        rw [← h2]
      rw [hdmp]
      exact lt_max_of_lt_right (by norm_num)
    · rw [if_neg hacc] at h2
      have hdmp : s'.damping = min (s.damping * cfg.dampingStepUp) (10 ^ 7) := by rw [← h2]
      rw [hdmp]
      exact lt_min (mul_pos hd hup) (by norm_num)

/-- Every state entering an executed iteration has strictly positive damping
(when the configured damping and `dampingStepUp` are positive). -/
theorem lmStates_damping_pos {n p : ℕ} (cfg : LMConfig n p) (hd : 0 < cfg.damping)
    (hup : 0 < cfg.dampingStepUp) :
    ∀ i s, lmStates cfg i = some s → 0 < s.damping := by
  intro i
  induction i with
  | zero =>
    intro s hs
    rw [lmStates] at hs
    split at hs
    · exact absurd hs (by simp)
    · have : s = ⟨cfg.parameters, _, cfg.damping⟩ := (Option.some_injective _ hs).symm
      rw [this]
      exact hd
  | succ i ih =>
    intro s hs
    rw [lmStates] at hs
    cases hprev : lmStates cfg i with
    | none => rw [hprev] at hs; simp at hs
    | some t =>
      rw [hprev, Option.some_bind] at hs
      cases hit : lmIter cfg t i with
      | error e => rw [hit] at hs; simp [Except.toOption] at hs
      | ok t' =>
        rw [hit] at hs
        simp only [Except.toOption, Option.some_bind] at hs
        split at hs
        · simp at hs
        · have hst : s = t' := (Option.some_injective _ hs).symm
          rw [hst]
          exact lmIter_damping_pos cfg t i t' (ih t hprev) hup hit

/-- A state entering iteration `i + 1` is produced from the state entering
iteration `i` by one successful loop body. -/
theorem lmStates_succ_inv {n p : ℕ} (cfg : LMConfig n p) (i : ℕ) (s' : LMState p)
    (h : lmStates cfg (i + 1) = some s') :
    ∃ s, lmStates cfg i = some s ∧ lmIter cfg s i = Except.ok s' := by
  rw [lmStates] at h
  cases hprev : lmStates cfg i with
  | none => rw [hprev] at h; simp at h
  | some t =>
    rw [hprev, Option.some_bind] at h
    cases hit : lmIter cfg t i with
    | error e => rw [hit] at h; simp [Except.toOption] at h
    | ok t' =>
      rw [hit] at h
      simp only [Except.toOption, Option.some_bind] at h
      split at h
      · simp at h
      · have h3 : t' = s' := Option.some_injective _ h
        rw [h3] at hit
        exact ⟨t, rfl, hit⟩

/-- C1: for every valid input (nonnegative weight squares — which is what
`checkOptions` always produces — a nonnegative improvement threshold, and
positive `damping`/`dampingStepUp`), the scalar returned by
`errorCalculation` is non-negative; across the iterations of
`levenbergMarquardt` the recorded error is monotonically non-increasing from
each executed iteration to the next (accepted steps lower it); and a
rejected step (improvement metric not exceeding `improvementThreshold`)
reverts the recorded error to its pre-step value. -/
theorem errorCalculation_nonneg_and_error_monotone {n p : ℕ} (cfg : LMConfig n p)
    (hw : ∀ j, 0 ≤ cfg.weightSquare j) (hthr : 0 ≤ cfg.improvementThreshold)
    (hd : 0 < cfg.damping) (hup : 0 < cfg.dampingStepUp) :
    (∀ params, 0 ≤ errorCalculation cfg.x cfg.y params cfg.parameterizedFunction
      cfg.weightSquare)
    ∧ (∀ i s s', lmStates cfg i = some s → lmIter cfg s i = Except.ok s' →
        s'.error ≤ s.error)
    ∧ (∀ i s s', ¬ lmMetric cfg s > cfg.improvementThreshold →
        lmIter cfg s i = Except.ok s' → s'.error = s.error) := by
  refine ⟨?_, ?_, ?_⟩
  · intro params
    rw [errorCalculation]
    refine Finset.sum_nonneg fun i _ => ?_
    exact div_nonneg (sq_nonneg _) (hw i)
  · intro i s s' hs hit
    exact lmIter_error_le cfg s i s' hw hthr
      (le_of_lt (lmStates_damping_pos cfg hd hup i s hs)) hit
  · intro i s s' hrej hit
    simp only [lmIter] at hit
    by_cases hclk : cfg.clock i = true
    · rw [if_pos hclk] at hit
      exact absurd hit (by simp)
    · rw [if_neg hclk] at hit
      have h2 := Except.ok.inj hit
      rw [if_neg hrej] at h2
      rw [← h2]

/-- Sample configuration for the C1 witness: fit `y = a·x` through
`(0, 0), (1, 1)` starting from `a = 3`, all options at their defaults. -/
def cfgWitnessC1 : LMConfig 2 1 where
  x := ![0, 1]
  y := ![0, 1]
  parameterizedFunction := fun ps t => ps 0 * t
  weightSquare := ![1, 1]
  minValues := ![minSafeInteger]
  maxValues := ![maxSafeInteger]
  parameters := ![3]
  damping := 1 / 100
  dampingStepUp := 11
  dampingStepDown := 9
  maxIterations := 100
  errorTolerance := 1 / 10 ^ 7
  centralDifference := false
  gradientDifference := ![1 / 10]
  improvementThreshold := 1 / 10 ^ 3
  clock := fun _ => false

/-- Witness for C1 at a concrete configuration. -/
theorem errorCalculation_nonneg_and_error_monotone_witness :
    (∀ params, 0 ≤ errorCalculation cfgWitnessC1.x cfgWitnessC1.y params
      cfgWitnessC1.parameterizedFunction cfgWitnessC1.weightSquare)
    ∧ (∀ i s s', lmStates cfgWitnessC1 i = some s →
        lmIter cfgWitnessC1 s i = Except.ok s' → s'.error ≤ s.error)
    ∧ (∀ i s s', ¬ lmMetric cfgWitnessC1 s > cfgWitnessC1.improvementThreshold →
        lmIter cfgWitnessC1 s i = Except.ok s' → s'.error = s.error) :=
  errorCalculation_nonneg_and_error_monotone cfgWitnessC1
    (fun j => by fin_cases j <;> norm_num [cfgWitnessC1])
    (by norm_num [cfgWitnessC1]) (by norm_num [cfgWitnessC1]) (by norm_num [cfgWitnessC1])

/-- C2: in an iteration whose improvement metric does not exceed
`improvementThreshold` (and whose timeout has not expired, since an expired
clock throws instead), the loop body rejects the step: the recorded error is
reverted to the pre-step error, the parameter vector keeps the clamped trial
values `lmNewParams` (it is not rolled back), and the damping becomes
`min(damping * dampingStepUp, 1e7)`. -/
theorem lmIter_rejected_step {n p : ℕ} (cfg : LMConfig n p) (s : LMState p) (i : ℕ)
    (hrej : ¬ lmMetric cfg s > cfg.improvementThreshold) (hclk : cfg.clock i = false) :
    lmIter cfg s i = Except.ok
      { parameters := lmNewParams cfg s
        error := s.error
        damping := min (s.damping * cfg.dampingStepUp) (10 ^ 7) } := by
  simp only [lmIter]
  rw [if_neg hrej, if_neg (by rw [hclk]; exact Bool.false_ne_true)]

/-- Sample configuration for the C2 witness: the line `y = a·x` through
`(1, 1), (2, 2)`; at `a = 1` the residual is zero, so the trial step is the
zero perturbation and the improvement metric is `0 ≤ 1e-3`: rejected. -/
def cfgWitnessC2 : LMConfig 2 1 where
  x := ![1, 2]
  y := ![1, 2]
  parameterizedFunction := fun ps t => ps 0 * t
  weightSquare := ![1, 1]
  minValues := ![minSafeInteger]
  maxValues := ![maxSafeInteger]
  parameters := ![1]
  damping := 1 / 100
  dampingStepUp := 11
  dampingStepDown := 9
  maxIterations := 100
  errorTolerance := 1 / 10 ^ 7
  centralDifference := false
  gradientDifference := ![1 / 10]
  improvementThreshold := 1 / 10 ^ 3
  clock := fun _ => false

/-- At the exact fit the weighted Jacobian–residual product vanishes. -/
theorem cfgWitnessC2_jwre_zero :
    stepJWRE cfgWitnessC2 ![1] = 0 := by
  ext r j
  rw [stepJWRE]
  simp only [Matrix.mul_apply, Matrix.zero_apply]
  refine Finset.sum_eq_zero fun i _ => ?_
  have : matrixFunction cfgWitnessC2.y (evaluatedData cfgWitnessC2 ![1]) i 0 = 0 := by
    fin_cases i <;> norm_num [matrixFunction, evaluatedData, cfgWitnessC2]
  have hscale : scaleRows cfgWitnessC2.weightSquare
      (matrixFunction cfgWitnessC2.y (evaluatedData cfgWitnessC2 ![1])) i j = 0 := by
    rw [scaleRows]
    have hj : j = 0 := Subsingleton.elim j 0
    rw [Matrix.of_apply, hj, this, mul_zero]
  rw [hscale, mul_zero]

/-- At the exact fit the rejection hypothesis of C2 holds: the improvement
metric evaluates to `0`, not exceeding the default threshold `1e-3`. -/
theorem cfgWitnessC2_rejected :
    ¬ lmMetric cfgWitnessC2 ⟨![1], 0, 1 / 100⟩ > cfgWitnessC2.improvementThreshold := by
  have hP : stepPerturbations cfgWitnessC2 ![1] (1 / 100) = 0 := by
    rw [stepPerturbations, cfgWitnessC2_jwre_zero, Matrix.mul_zero]
  have hparams : lmNewParams cfgWitnessC2 ⟨![1], 0, 1 / 100⟩ = ![1] := by
    funext k
    rw [lmNewParams, hP]
    fin_cases k
    simp only [Matrix.zero_apply, sub_zero]
    norm_num [cfgWitnessC2, minSafeInteger, maxSafeInteger]
  have herr : lmNewError cfgWitnessC2 ⟨![1], 0, 1 / 100⟩ = 0 := by
    rw [lmNewError, hparams, errorCalculation]
    rw [Fin.sum_univ_two]
    norm_num [cfgWitnessC2]
  have hden : lmDenominator cfgWitnessC2 ⟨![1], 0, 1 / 100⟩ = 0 := by
    rw [lmDenominator]
    simp only [hP, cfgWitnessC2_jwre_zero, Matrix.transpose_zero, Matrix.zero_mul,
      Matrix.zero_apply]
  rw [lmMetric, herr, hden]
  norm_num [cfgWitnessC2]

/-- Witness for C2 at a concrete rejected iteration. -/
theorem lmIter_rejected_step_witness :
    lmIter cfgWitnessC2 ⟨![1], 0, 1 / 100⟩ 0 = Except.ok
      { parameters := lmNewParams cfgWitnessC2 ⟨![1], 0, 1 / 100⟩
        error := (0 : ℚ)
        damping := min ((1 / 100 : ℚ) * cfgWitnessC2.dampingStepUp) (10 ^ 7) } :=
  lmIter_rejected_step cfgWitnessC2 ⟨![1], 0, 1 / 100⟩ 0 cfgWitnessC2_rejected rfl

/-- One executed loop body keeps the damping inside `[1e-7, 1e7]`, provided
it entered inside that interval and both step factors are at least `1`. -/
theorem lmIter_damping_bounds {n p : ℕ} (cfg : LMConfig n p) (s : LMState p) (i : ℕ)
    (s' : LMState p) (hlo : 1 / 10 ^ 7 ≤ s.damping) (hhi : s.damping ≤ 10 ^ 7)
    (hup : 1 ≤ cfg.dampingStepUp) (hdown : 1 ≤ cfg.dampingStepDown)
    (h : lmIter cfg s i = Except.ok s') :
    1 / 10 ^ 7 ≤ s'.damping ∧ s'.damping ≤ 10 ^ 7 := by
  have hd0 : (0 : ℚ) ≤ s.damping := le_trans (by norm_num) hlo
  simp only [lmIter] at h
  by_cases hclk : cfg.clock i = true
  · rw [if_pos hclk] at h
    exact absurd h (by simp)
  · rw [if_neg hclk] at h
    have h2 := Except.ok.inj h
    by_cases hacc : lmMetric cfg s > cfg.improvementThreshold
    · rw [if_pos hacc] at h2
      have hdmp : s'.damping = max (s.damping / cfg.dampingStepDown) (1 / 10 ^ 7) := by
        rw [← h2]
      rw [hdmp]
      constructor
      · exact le_max_right _ _
      · exact max_le (le_trans (div_le_self hd0 hdown) hhi) (by norm_num)
    · rw [if_neg hacc] at h2
      have hdmp : s'.damping = min (s.damping * cfg.dampingStepUp) (10 ^ 7) := by
        rw [← h2]
      rw [hdmp]
      constructor
      · exact le_min (le_trans hlo (le_mul_of_one_le_right hd0 hup)) (by norm_num)
      · exact min_le_right _ _

/-- C3 (amended): when the configured damping itself lies in `[1e-7, 1e7]`
and `dampingStepUp`, `dampingStepDown` are at least `1` (the defaults `11`
and `9` qualify), the damping handed to the step solver lies in
`[1e-7, 1e7]` at every executed iteration.  (The original claim, for every
strictly positive damping option, fails: the initial damping is used
unclamped, see the counterexample.) -/
theorem lmStates_damping_bounds {n p : ℕ} (cfg : LMConfig n p)
    (hlo : 1 / 10 ^ 7 ≤ cfg.damping) (hhi : cfg.damping ≤ 10 ^ 7)
    (hup : 1 ≤ cfg.dampingStepUp) (hdown : 1 ≤ cfg.dampingStepDown) :
    ∀ i s, lmStates cfg i = some s → 1 / 10 ^ 7 ≤ s.damping ∧ s.damping ≤ 10 ^ 7 := by
  intro i
  induction i with
  | zero =>
    intro s hs
    rw [lmStates] at hs
    split at hs
    · exact absurd hs (by simp)
    · have : s = ⟨cfg.parameters, _, cfg.damping⟩ := (Option.some_injective _ hs).symm
      rw [this]
      exact ⟨hlo, hhi⟩
  | succ i ih =>
    intro s hs
    obtain ⟨t, ht, hit⟩ := lmStates_succ_inv cfg i s hs
    obtain ⟨hl, hh⟩ := ih t ht
    exact lmIter_damping_bounds cfg t i s hl hh hup hdown hit

/-- Configuration refuting C3 as stated: `damping = 1e8` is a strictly
positive damping option, and the initial error `5` exceeds the tolerance, so
iteration 0 executes. -/
def cfgCounterC3 : LMConfig 2 1 where
  x := ![0, 1]
  y := ![1, 2]
  parameterizedFunction := fun ps t => ps 0 * t
  weightSquare := ![1, 1]
  minValues := ![minSafeInteger]
  maxValues := ![maxSafeInteger]
  parameters := ![0]
  damping := 10 ^ 8
  dampingStepUp := 11
  dampingStepDown := 9
  maxIterations := 100
  errorTolerance := 1 / 10 ^ 7
  centralDifference := false
  gradientDifference := ![1 / 10]
  improvementThreshold := 1 / 10 ^ 3
  clock := fun _ => false

/-- Counterexample to C3 as stated: a run whose (strictly positive) damping
option is `1e8` enters iteration 0 with damping `1e8 > 1e7`, so the damping
used by the step solver does not lie in `[1e-7, 1e7]`. -/
theorem lmStates_damping_outside_counterexample :
    (0 : ℚ) < cfgCounterC3.damping
    ∧ lmStates cfgCounterC3 0 = some ⟨![0], 5, 10 ^ 8⟩
    ∧ ¬ ((⟨![0], 5, 10 ^ 8⟩ : LMState 1).damping ≤ 10 ^ 7) := by
  refine ⟨by norm_num [cfgCounterC3], ?_, by norm_num⟩
  rw [lmStates]
  have herr : errorCalculation cfgCounterC3.x cfgCounterC3.y cfgCounterC3.parameters
      cfgCounterC3.parameterizedFunction cfgCounterC3.weightSquare = 5 := by
    rw [errorCalculation, Fin.sum_univ_two]
    norm_num [cfgCounterC3]
  rw [herr]
  norm_num [cfgCounterC3]

/-- Witness for the amended C3 at a concrete configuration (the C2 sample
configuration shape with default damping `1e-2`): iteration 0 executes and
its damping lies in the band. -/
def cfgWitnessC3 : LMConfig 2 1 where
  x := ![0, 1]
  y := ![1, 2]
  parameterizedFunction := fun ps t => ps 0 * t
  weightSquare := ![1, 1]
  minValues := ![minSafeInteger]
  maxValues := ![maxSafeInteger]
  parameters := ![0]
  damping := 1 / 100
  dampingStepUp := 11
  dampingStepDown := 9
  maxIterations := 100
  errorTolerance := 1 / 10 ^ 7
  centralDifference := false
  gradientDifference := ![1 / 10]
  improvementThreshold := 1 / 10 ^ 3
  clock := fun _ => false

theorem lmStates_damping_bounds_witness :
    1 / 10 ^ 7 ≤ (⟨![0], 5, 1 / 100⟩ : LMState 1).damping ∧
      (⟨![0], 5, 1 / 100⟩ : LMState 1).damping ≤ 10 ^ 7 := by
  refine lmStates_damping_bounds cfgWitnessC3 (by norm_num [cfgWitnessC3])
    (by norm_num [cfgWitnessC3]) (by norm_num [cfgWitnessC3]) (by norm_num [cfgWitnessC3])
    0 ⟨![0], 5, 1 / 100⟩ ?_
  rw [lmStates]
  have herr : errorCalculation cfgWitnessC3.x cfgWitnessC3.y cfgWitnessC3.parameters
      cfgWitnessC3.parameterizedFunction cfgWitnessC3.weightSquare = 5 := by
    rw [errorCalculation, Fin.sum_univ_two]
    norm_num [cfgWitnessC3]
  rw [herr]
  norm_num [cfgWitnessC3]

/-- With `minValues = maxValues = initialValues`, the clamp pins every trial
update back to the initial vector, whatever the incoming state. -/
theorem lmNewParams_pinned {n p : ℕ} (cfg : LMConfig n p) (s : LMState p)
    (hmin : cfg.minValues = cfg.parameters) (hmax : cfg.maxValues = cfg.parameters) :
    lmNewParams cfg s = cfg.parameters := by
  funext k
  rw [lmNewParams, hmin, hmax]
  exact min_eq_right (le_max_left _ _)

/-- Under pinned bounds, one executed loop body leaves the parameter vector
at the initial values. -/
theorem lmIter_params_pinned {n p : ℕ} (cfg : LMConfig n p) (s : LMState p) (i : ℕ)
    (s' : LMState p) (hmin : cfg.minValues = cfg.parameters)
    (hmax : cfg.maxValues = cfg.parameters) (h : lmIter cfg s i = Except.ok s') :
    s'.parameters = cfg.parameters := by
  simp only [lmIter] at h
  by_cases hclk : cfg.clock i = true
  · rw [if_pos hclk] at h
    exact absurd h (by simp)
  · rw [if_neg hclk] at h
    have h2 := Except.ok.inj h
    by_cases hacc : lmMetric cfg s > cfg.improvementThreshold
    · rw [if_pos hacc] at h2
      rw [← h2]
      exact lmNewParams_pinned cfg s hmin hmax
    · rw [if_neg hacc] at h2
      rw [← h2]
      exact lmNewParams_pinned cfg s hmin hmax

/-- The iteration counter the loop returns never exceeds the entry counter
plus the remaining budget. -/
theorem lmLoop_iterations_le {n p : ℕ} (cfg : LMConfig n p) :
    ∀ fuel (s : LMState p) (iteration : ℕ) r,
      lmLoop cfg s iteration fuel = Except.ok r → r.2 ≤ iteration + fuel := by
  intro fuel
  induction fuel with
  | zero =>
    intro s iteration r h
    rw [lmLoop] at h
    have := Except.ok.inj h
    rw [← this]
    simp
  | succ fuel ih =>
    intro s iteration r h
    rw [lmLoop] at h
    split at h
    · have := Except.ok.inj h
      rw [← this]
      exact Nat.le_add_right _ _
    · cases hit : lmIter cfg s iteration with
      | error e => rw [hit] at h; exact absurd h (by simp)
      | ok s' =>
        rw [hit] at h
        have := ih s' (iteration + 1) r h
        omega

/-- Under pinned bounds the loop returns the initial parameter vector. -/
theorem lmLoop_params_pinned {n p : ℕ} (cfg : LMConfig n p)
    (hmin : cfg.minValues = cfg.parameters) (hmax : cfg.maxValues = cfg.parameters) :
    ∀ fuel (s : LMState p) (iteration : ℕ) r,
      s.parameters = cfg.parameters →
      lmLoop cfg s iteration fuel = Except.ok r → r.1.parameters = cfg.parameters := by
  intro fuel
  induction fuel with
  | zero =>
    intro s iteration r hs h
    rw [lmLoop] at h
    have := Except.ok.inj h
    rw [← this]
    exact hs
  | succ fuel ih =>
    intro s iteration r hs h
    rw [lmLoop] at h
    split at h
    · have := Except.ok.inj h
      rw [← this]
      exact hs
    · cases hit : lmIter cfg s iteration with
      | error e => rw [hit] at h; exact absurd h (by simp)
      | ok s' =>
        rw [hit] at h
        exact ih s' (iteration + 1) r (lmIter_params_pinned cfg s iteration s' hmin hmax hit) h

/-- With a clock that never expires, one loop body never throws. -/
theorem lmIter_ok_of_clock_false {n p : ℕ} (cfg : LMConfig n p) (s : LMState p) (i : ℕ)
    (hclk : cfg.clock i = false) : ∃ s', lmIter cfg s i = Except.ok s' := by
  simp only [lmIter]
  rw [if_neg (by rw [hclk]; exact Bool.false_ne_true)]
  exact ⟨_, rfl⟩

/-- With a clock that never expires, the loop always returns a result. -/
theorem lmLoop_ok_of_clock_false {n p : ℕ} (cfg : LMConfig n p)
    (hclk : ∀ j, cfg.clock j = false) :
    ∀ fuel (s : LMState p) (iteration : ℕ), ∃ r, lmLoop cfg s iteration fuel = Except.ok r := by
  intro fuel
  induction fuel with
  | zero =>
    intro s iteration
    exact ⟨(s, iteration), rfl⟩
  | succ fuel ih =>
    intro s iteration
    rw [lmLoop]
    split
    · exact ⟨(s, iteration), rfl⟩
    · obtain ⟨s', hs'⟩ := lmIter_ok_of_clock_false cfg s iteration (hclk iteration)
      rw [hs']
      exact ih s' (iteration + 1)

/-- C7: when `minValues = maxValues = initialValues` elementwise, the
parameter vector never changes across iterations (every executed iteration
enters with the initial vector, and any returned fit carries it), and the
loop still terminates: a run whose clock never expires returns a result, and
the returned iteration count never exceeds `maxIterations`. -/
theorem lmRun_params_frozen {n p : ℕ} (cfg : LMConfig n p)
    (hmin : cfg.minValues = cfg.parameters) (hmax : cfg.maxValues = cfg.parameters) :
    (∀ i s, lmStates cfg i = some s → s.parameters = cfg.parameters)
    ∧ (∀ r, lmRun cfg = Except.ok r → r.1 = cfg.parameters ∧ r.2.2 ≤ cfg.maxIterations)
    ∧ ((∀ j, cfg.clock j = false) → ∃ r, lmRun cfg = Except.ok r) := by
  refine ⟨?_, ?_, ?_⟩
  · intro i
    induction i with
    | zero =>
      intro s hs
      rw [lmStates] at hs
      split at hs
      · exact absurd hs (by simp)
      · have : s = ⟨cfg.parameters, _, cfg.damping⟩ := (Option.some_injective _ hs).symm
        rw [this]
    | succ i ih =>
      intro s hs
      obtain ⟨t, ht, hit⟩ := lmStates_succ_inv cfg i s hs
      exact lmIter_params_pinned cfg t i s hmin hmax hit
  · intro r h
    rw [lmRun] at h
    cases hloop : lmLoop cfg ⟨cfg.parameters, _, cfg.damping⟩ 0 cfg.maxIterations with
    | error e => rw [hloop] at h; exact absurd h (by simp)
    | ok q =>
      rw [hloop] at h
      have hr := Except.ok.inj h
      constructor
      · have := lmLoop_params_pinned cfg hmin hmax cfg.maxIterations _ 0 q rfl hloop
        rw [← hr]
        exact this
      · have := lmLoop_iterations_le cfg cfg.maxIterations _ 0 q hloop
        rw [← hr]
        simpa using this
  · intro hclk
    rw [lmRun]
    obtain ⟨q, hq⟩ := lmLoop_ok_of_clock_false cfg hclk cfg.maxIterations
      ⟨cfg.parameters, errorCalculation cfg.x cfg.y cfg.parameters
        cfg.parameterizedFunction cfg.weightSquare, cfg.damping⟩ 0
    rw [hq]
    exact ⟨(q.1.parameters, q.1.error, q.2), rfl⟩

/-- Sample configuration for the C7 witness: bounds and initial values all
pinned at `a = 1`. -/
def cfgWitnessC7 : LMConfig 2 1 where
  x := ![0, 1]
  y := ![1, 2]
  parameterizedFunction := fun ps t => ps 0 * t
  weightSquare := ![1, 1]
  minValues := ![1]
  maxValues := ![1]
  parameters := ![1]
  damping := 1 / 100
  dampingStepUp := 11
  dampingStepDown := 9
  maxIterations := 100
  errorTolerance := 1 / 10 ^ 7
  centralDifference := false
  gradientDifference := ![1 / 10]
  improvementThreshold := 1 / 10 ^ 3
  clock := fun _ => false

/-- Witness for C7 at a concrete pinned configuration. -/
theorem lmRun_params_frozen_witness :
    (∀ i s, lmStates cfgWitnessC7 i = some s → s.parameters = cfgWitnessC7.parameters)
    ∧ (∀ r, lmRun cfgWitnessC7 = Except.ok r →
        r.1 = cfgWitnessC7.parameters ∧ r.2.2 ≤ cfgWitnessC7.maxIterations)
    ∧ ((∀ j, cfgWitnessC7.clock j = false) → ∃ r, lmRun cfgWitnessC7 = Except.ok r) :=
  lmRun_params_frozen cfgWitnessC7 rfl rfl

/-- One turn of `gradientFunction`'s loop at the raw-array level, where the
matrix is a list of rows and its row count is observable data. -/
def gradientStepList (x evaluatedData params gradientDifference : List ℚ)
    (paramFunction : List ℚ → ℚ → ℚ) (centralDifference : Bool)
    (st : ℕ × List (List ℚ)) (param : ℕ) : ℕ × List (List ℚ) :=
  if gradientDifference.getD param 0 = 0 then st
  else
    let delta := gradientDifference.getD param 0
    let funcParam := paramFunction (params.set param (params.getD param 0 + delta))
    let row :=
      if ¬centralDifference then
        (List.range x.length).map fun point =>
          (evaluatedData.getD point 0 - funcParam (x.getD point 0)) / delta
      else
        let funcParam2 := paramFunction (params.set param (params.getD param 0 - delta))
        (List.range x.length).map fun point =>
          (funcParam2 (x.getD point 0) - funcParam (x.getD point 0)) / (2 * delta)
    (st.1 + 1, st.2.set st.1 row)

/-- `gradientFunction` at the raw-array level: `Matrix.zeros(nbParams,
nbPoints)` is a `params.length`-long list of zero rows, and the loop
overwrites the prefix of rows indexed by `rowIndex`. -/
def gradientFunctionList (x evaluatedData params gradientDifference : List ℚ)
    (paramFunction : List ℚ → ℚ → ℚ) (centralDifference : Bool) : List (List ℚ) :=
  (List.foldl
    (gradientStepList x evaluatedData params gradientDifference paramFunction
      centralDifference)
    (0, List.replicate params.length (List.replicate x.length 0))
    (List.range params.length)).2

/-- The row-writing loop never changes the number of rows. -/
theorem gradientFunctionList_length (x evaluatedData params gradientDifference : List ℚ)
    (paramFunction : List ℚ → ℚ → ℚ) (centralDifference : Bool) :
    (gradientFunctionList x evaluatedData params gradientDifference paramFunction
      centralDifference).length = params.length := by
  rw [gradientFunctionList]
  have key : ∀ (l : List ℕ) (st : ℕ × List (List ℚ)),
      ((l.foldl (gradientStepList x evaluatedData params gradientDifference paramFunction
        centralDifference) st).2).length = st.2.length := by
    intro l
    induction l with
    | nil => intro st; rfl
    | cons a l ih =>
      intro st
      rw [List.foldl_cons, ih]
      rw [gradientStepList]
      split
      · rfl
      · simp
  rw [key]
  exact List.length_replicate _ _

/-- The invariant of `gradientFunction`'s fold: starting at free row index
`k`, processing the parameter list `l` advances the index by the number of
active parameters in `l`, writes their difference rows consecutively from
row `k` in order, and touches no other row. -/
theorem gradientStep_fold_invariant {n p : ℕ} (x evaluatedData : Fin n → ℚ)
    (params gradientDifference : Fin p → ℚ) (f : (Fin p → ℚ) → ℚ → ℚ) (central : Bool) :
    ∀ (l : List (Fin p)) (k : ℕ) (M : Matrix (Fin p) (Fin n) ℚ),
      k + (l.filter fun t => gradientDifference t ≠ 0).length ≤ p →
      (l.foldl (gradientStep x evaluatedData params gradientDifference f central) (k, M)).1 =
          k + (l.filter fun t => gradientDifference t ≠ 0).length
      ∧ (∀ i (hi : i < (l.filter fun t => gradientDifference t ≠ 0).length)
          (hip : k + i < p),
          (l.foldl (gradientStep x evaluatedData params gradientDifference f central)
            (k, M)).2 ⟨k + i, hip⟩ =
            gradientRow x evaluatedData params gradientDifference f central
              ((l.filter fun t => gradientDifference t ≠ 0).get ⟨i, hi⟩))
      ∧ (∀ r : Fin p,
          ((r : ℕ) < k ∨ k + (l.filter fun t => gradientDifference t ≠ 0).length ≤ (r : ℕ)) →
          (l.foldl (gradientStep x evaluatedData params gradientDifference f central)
            (k, M)).2 r = M r) := by
  intro l
  induction l with
  | nil =>
    intro k M hk
    refine ⟨by simp, ?_, ?_⟩
    · intro i hi
      simp at hi
    · intro r _
      rfl
  | cons a l ih =>
    intro k M hk
    by_cases ha : gradientDifference a = 0
    · have hfilter : ((a :: l).filter fun t => gradientDifference t ≠ 0) =
          l.filter fun t => gradientDifference t ≠ 0 := by
        simp [List.filter_cons, ha]
      have hstep : gradientStep x evaluatedData params gradientDifference f central (k, M) a
          = (k, M) := by
        rw [gradientStep, if_pos ha]
      rw [List.foldl_cons, hstep, hfilter]
      rw [hfilter] at hk
      exact ih k M hk
    · have hfilter : ((a :: l).filter fun t => gradientDifference t ≠ 0) =
          a :: (l.filter fun t => gradientDifference t ≠ 0) := by
        simp [List.filter_cons, ha]
      rw [hfilter] at hk
      rw [List.length_cons] at hk
      have hkp : k < p := by omega
      have hstep : gradientStep x evaluatedData params gradientDifference f central (k, M) a
          = (k + 1, M.updateRow ⟨k, hkp⟩
              (gradientRow x evaluatedData params gradientDifference f central a)) := by
        rw [gradientStep, if_neg ha, dif_pos hkp]
      have hk' : (k + 1) + (l.filter fun t => gradientDifference t ≠ 0).length ≤ p := by
        omega
      obtain ⟨ih1, ih2, ih3⟩ := ih (k + 1)
        (M.updateRow ⟨k, hkp⟩
          (gradientRow x evaluatedData params gradientDifference f central a)) hk'
      rw [List.foldl_cons, hstep, hfilter]
      refine ⟨?_, ?_, ?_⟩
      · rw [ih1, List.length_cons]
        omega
      · intro i hi hip
        cases i with
        | zero =>
          have hrow := ih3 ⟨k + 0, hip⟩ (Or.inl (by show k + 0 < k + 1; omega))
          rw [hrow]
          have hidx : (⟨k + 0, hip⟩ : Fin p) = ⟨k, hkp⟩ := Fin.ext (Nat.add_zero k)
          rw [hidx, Matrix.updateRow_self]
          rfl
        | succ j =>
          have hj : j < (l.filter fun t => gradientDifference t ≠ 0).length := by
            rw [List.length_cons] at hi
            omega
          have hjp : (k + 1) + j < p := by omega
          have hres := ih2 j hj hjp
          have hidx : (⟨k + (j + 1), hip⟩ : Fin p) = ⟨(k + 1) + j, hjp⟩ :=
            Fin.ext (by show k + (j + 1) = (k + 1) + j; omega)
          rw [hidx, hres]
          rfl
      · intro r hr
        have hr' : (r : ℕ) < k + 1 ∨
            (k + 1) + (l.filter fun t => gradientDifference t ≠ 0).length ≤ (r : ℕ) := by
          rcases hr with h | h
          · exact Or.inl (by omega)
          · rw [List.length_cons] at h
            exact Or.inr (by omega)
        rw [ih3 r hr']
        have hne : r ≠ ⟨k, hkp⟩ := by
          intro hcontra
          have hrk : (r : ℕ) = k := by rw [hcontra]
          rcases hr with h | h
          · omega
          · rw [List.length_cons] at h
            omega
        exact Matrix.updateRow_ne hne

/-- C4 (amended): the Jacobian estimator always produces a matrix with
`parLen` rows (`Matrix.zeros(nbParams, nbPoints)` is never shrunk), not one
row per active parameter: the difference rows of the active parameters
(nonzero `gradientDifference` entry) are packed in order at the top, with
subsequent row indices shifted down, and every row at an index at or beyond
the active-parameter count is identically zero; consequently the step solver
inverts the `parLen × parLen` matrix `stepMatrixA`, not an
active-parameter-count-square one. -/
theorem gradientFunction_rows_packed {n p : ℕ} (x evaluatedData : Fin n → ℚ)
    (params gradientDifference : Fin p → ℚ) (f : (Fin p → ℚ) → ℚ → ℚ) (central : Bool)
    (xl edl pl gdl : List ℚ) (fl : List ℚ → ℚ → ℚ) (centrall : Bool) :
    (∀ i (hi : i < ((List.finRange p).filter fun t => gradientDifference t ≠ 0).length)
      (hip : i < p),
      gradientFunction x evaluatedData params gradientDifference f central ⟨i, hip⟩ =
        gradientRow x evaluatedData params gradientDifference f central
          (((List.finRange p).filter fun t => gradientDifference t ≠ 0).get ⟨i, hi⟩))
    ∧ (∀ r : Fin p,
        ((List.finRange p).filter fun t => gradientDifference t ≠ 0).length ≤ (r : ℕ) →
        ∀ j, gradientFunction x evaluatedData params gradientDifference f central r j = 0)
    ∧ (gradientFunctionList xl edl pl gdl fl centrall).length = pl.length := by
  have hlen : (0 : ℕ) + ((List.finRange p).filter fun t => gradientDifference t ≠ 0).length
      ≤ p := by
    have := List.length_filter_le (fun t => decide (gradientDifference t ≠ 0))
      (List.finRange p)
    simpa using this
  obtain ⟨h1, h2, h3⟩ := gradientStep_fold_invariant x evaluatedData params
    gradientDifference f central (List.finRange p) 0 0 hlen
  refine ⟨?_, ?_, gradientFunctionList_length xl edl pl gdl fl centrall⟩
  · intro i hi hip
    have hzi : 0 + i < p := by omega
    have hres := h2 i hi hzi
    rw [gradientFunction]
    have hidx : (⟨i, hip⟩ : Fin p) = ⟨0 + i, hzi⟩ := Fin.ext (Nat.zero_add i).symm
    rw [hidx]
    exact hres
  · intro r hr j
    have := h3 r (Or.inr (by omega))
    rw [gradientFunction, this]
    rfl

/-- Counterexample to C4 as stated: with two parameters of which one has a
zero `gradientDifference` step, the produced matrix still has `2` rows — not
`1`, the number of active parameters — so the row count does not drop to the
active-parameter count. -/
theorem gradientFunction_row_count_counterexample :
    (gradientFunctionList [0, 1] [0, 0] [1, 1] [1, 0]
      (fun ps t => ps.getD 0 0 * t) false).length = 2
    ∧ (([1, 0] : List ℚ).filter fun g => g ≠ 0).length = 1
    ∧ (2 : ℕ) ≠ 1 := by
  refine ⟨?_, by decide, by decide⟩
  rw [gradientFunctionList_length]
  rfl

/-- The `data` argument: `{x: Array<number>, y: Array<number>}`. -/
structure RawData where
  x : List ℚ
  y : List ℚ
deriving DecidableEq

/-- A dynamically typed option that the source probes with `typeof ... ===
'number'` and `isArray`: a number, an array, or anything else. -/
inductive NumOrList where
  | num (value : ℚ)
  | arr (values : List ℚ)
  | other
deriving DecidableEq

/-- The recognized options of `checkOptions`, with the source's destructuring
defaults.  `timeout` is either absent or a number (a non-numeric timeout is
outside this model, which cannot express other runtime types there). -/
structure RawOptions where
  timeout : Option ℚ := none
  minValues : Option (List ℚ) := none
  maxValues : Option (List ℚ) := none
  initialValues : Option (List ℚ) := none
  weights : NumOrList := NumOrList.num 1
  damping : ℚ := 1 / 100
  dampingStepUp : ℚ := 11
  dampingStepDown : ℚ := 9
  maxIterations : ℕ := 100
  errorTolerance : ℚ := 1 / 10 ^ 7
  centralDifference : Bool := false
  gradientDifference : NumOrList := NumOrList.num (1 / 10)
  improvementThreshold : ℚ := 1 / 10 ^ 3
deriving DecidableEq

/-- The resolved bundle `checkOptions` returns.  `checkTimeout` is kept as
the raw `timeout` option; the caller turns it into a per-iteration predicate
(the wall clock is abstracted by an oracle). -/
structure Config where
  timeout : Option ℚ
  minValues : List ℚ
  maxValues : List ℚ
  parameters : List ℚ
  weightSquare : List ℚ
  damping : ℚ
  dampingStepUp : ℚ
  dampingStepDown : ℚ
  maxIterations : ℕ
  errorTolerance : ℚ
  centralDifference : Bool
  gradientDifference : List ℚ
  improvementThreshold : ℚ
deriving DecidableEq

/-- Source: `checkOptions(data, parameterizedFunction, options)`.  `arity`
stands for `parameterizedFunction.length`, the declared parameter count read
when `initialValues` is absent.  Deviations forced by the typed model: the
`!data.x || !data.y` and `!isArray(...)` probes cannot fire (the fields are
always rational lists here), and the `gd[0]` / `weights[0]` of an *empty*
mismatched array — `undefined` in JavaScript — is modelled as `headD 0`. -/
def checkOptions (data : RawData) (arity : ℕ) (options : RawOptions) :
    Except String Config :=
  if options.damping ≤ 0 then
    Except.error "The damping option must be a positive number"
  else if data.x.length < 2 ∨ data.y.length < 2 then
    Except.error "The data parameter elements must be an array with more than 2 points"
  else if data.x.length ≠ data.y.length then
    Except.error "The data parameter elements must have the same size"
  else
    let parameters := options.initialValues.getD (List.replicate arity 1)
    let nbPoints := data.y.length
    let parLen := parameters.length
    let maxValues := options.maxValues.getD (List.replicate parLen maxSafeInteger)
    let minValues := options.minValues.getD (List.replicate parLen minSafeInteger)
    if maxValues.length ≠ minValues.length then
      Except.error "minValues and maxValues must be the same size"
    else
      let finish := fun (gradientDifference weightSquare : List ℚ) =>
        Except.ok
          { timeout := options.timeout
            minValues := minValues
            maxValues := maxValues
            parameters := parameters
            weightSquare := weightSquare
            damping := options.damping
            dampingStepUp := options.dampingStepUp
            dampingStepDown := options.dampingStepDown
            maxIterations := options.maxIterations
            errorTolerance := options.errorTolerance
            centralDifference := options.centralDifference
            gradientDifference := gradientDifference
            improvementThreshold := options.improvementThreshold : Config }
      let withGd := fun (gradientDifference : List ℚ) =>
        match options.weights with
        | NumOrList.num w =>
          finish gradientDifference ((List.range nbPoints).map fun _ => 1 / w ^ 2)
        | NumOrList.arr weights =>
          if weights.length < data.x.length then
            finish gradientDifference
              ((List.range nbPoints).map fun _ => 1 / weights.headD 0 ^ 2)
          else
            finish gradientDifference
              ((List.range nbPoints).map fun i => 1 / weights.getD i 0 ^ 2)
        | NumOrList.other =>
          Except.error
            "weights should be a number or array with length equal to the number of data points"
      match options.gradientDifference with
      | NumOrList.num g => withGd (List.replicate parLen g)
      | NumOrList.arr l =>
        withGd (if l.length ≠ parLen then List.replicate parLen (l.headD 0) else l)
      | NumOrList.other =>
        Except.error
          "gradientDifference should be a number or array with length equal to the number of parameters"

deriving instance DecidableEq for Except

/-- `{parameterValues, parameterError, iterations}`. -/
structure FitResult where
  parameterValues : List ℚ
  parameterError : ℚ
  iterations : ℕ
deriving DecidableEq

/-- Bridge a resolved `Config` to the sized numeric state: JavaScript array
reads become in-range `getD` lookups, and `checkTimeout` becomes the oracle
`clock` when a timeout was configured and the constant-false predicate
otherwise. -/
def toLMConfig (data : RawData) (f : List ℚ → ℚ → ℚ) (c : Config) (clock : ℕ → Bool) :
    LMConfig data.x.length c.parameters.length where
  x := fun i => data.x.getD i 0
  y := fun i => data.y.getD i 0
  parameterizedFunction := fun ps t => f (List.ofFn ps) t
  weightSquare := fun i => c.weightSquare.getD i 0
  minValues := fun k => c.minValues.getD k 0
  maxValues := fun k => c.maxValues.getD k 0
  parameters := fun k => c.parameters.getD k 0
  damping := c.damping
  dampingStepUp := c.dampingStepUp
  dampingStepDown := c.dampingStepDown
  maxIterations := c.maxIterations
  errorTolerance := c.errorTolerance
  centralDifference := c.centralDifference
  gradientDifference := fun k => c.gradientDifference.getD k 0
  improvementThreshold := c.improvementThreshold
  clock := match c.timeout with
    | none => fun _ => false
    | some _ => clock

/-- Source: `levenbergMarquardt(data, parameterizedFunction, options)` — the
module's single entry point: resolve the options, run the loop, package the
result. -/
def levenbergMarquardt (data : RawData) (arity : ℕ)
    (parameterizedFunction : List ℚ → ℚ → ℚ) (options : RawOptions)
    (clock : ℕ → Bool) : Except String FitResult :=
  match checkOptions data arity options with
  | Except.error e => Except.error e
  | Except.ok c =>
    match lmRun (toLMConfig data parameterizedFunction c clock) with
    | Except.error e => Except.error e
    | Except.ok r => Except.ok ⟨List.ofFn r.1, r.2.1, r.2.2⟩

/-- Any of the three entry validations failing makes `checkOptions` throw. -/
theorem checkOptions_invalid (data : RawData) (arity : ℕ) (options : RawOptions)
    (h : data.x.length ≠ data.y.length ∨ data.x.length < 2 ∨ data.y.length < 2 ∨
      options.damping ≤ 0) :
    ∃ msg, checkOptions data arity options = Except.error msg := by
  by_cases hd : options.damping ≤ 0
  · exact ⟨_, by rw [checkOptions, if_pos hd]⟩
  · by_cases h2 : data.x.length < 2 ∨ data.y.length < 2
    · exact ⟨_, by rw [checkOptions, if_neg hd, if_pos h2]⟩
    · have hne : data.x.length ≠ data.y.length := by
        rcases h with h | h | h | h
        · exact h
        · exact absurd (Or.inl h) h2
        · exact absurd (Or.inr h) h2
        · exact absurd h hd
      exact ⟨_, by rw [checkOptions, if_neg hd, if_neg h2, if_pos hne]⟩

/-- C6: whenever the `x` and `y` sequences have unequal length, or either
has length `< 2`, or `damping` is non-positive, the fit raises an input
error, and it does so before the model function is ever evaluated: the
outcome is the same for every model function. -/
theorem levenbergMarquardt_invalid_input (data : RawData) (arity : ℕ)
    (f : List ℚ → ℚ → ℚ) (options : RawOptions) (clock : ℕ → Bool)
    (h : data.x.length ≠ data.y.length ∨ data.x.length < 2 ∨ data.y.length < 2 ∨
      options.damping ≤ 0) :
    (∃ msg, levenbergMarquardt data arity f options clock = Except.error msg)
    ∧ ∀ g, levenbergMarquardt data arity g options clock =
        levenbergMarquardt data arity f options clock := by
  obtain ⟨msg, hmsg⟩ := checkOptions_invalid data arity options h
  constructor
  · exact ⟨msg, by rw [levenbergMarquardt, hmsg]⟩
  · intro g
    rw [levenbergMarquardt, hmsg, levenbergMarquardt, hmsg]

/-- Witness for C6: `x` has 2 points, `y` has 3. -/
theorem levenbergMarquardt_invalid_input_witness :
    (∃ msg, levenbergMarquardt ⟨[1, 2], [1, 2, 3]⟩ 1 (fun ps t => ps.getD 0 0 * t) {}
      (fun _ => false) = Except.error msg)
    ∧ ∀ g, levenbergMarquardt ⟨[1, 2], [1, 2, 3]⟩ 1 g {} (fun _ => false) =
        levenbergMarquardt ⟨[1, 2], [1, 2, 3]⟩ 1 (fun ps t => ps.getD 0 0 * t) {}
          (fun _ => false) :=
  levenbergMarquardt_invalid_input ⟨[1, 2], [1, 2, 3]⟩ 1 (fun ps t => ps.getD 0 0 * t) {}
    (fun _ => false) (Or.inl (by decide))

/-- A loop entered at or below the error tolerance exits at once. -/
theorem lmLoop_converged {n p : ℕ} (cfg : LMConfig n p) (s : LMState p)
    (iteration fuel : ℕ) (h : s.error ≤ cfg.errorTolerance) :
    lmLoop cfg s iteration fuel = Except.ok (s, iteration) := by
  cases fuel with
  | zero => rfl
  | succ fuel => rw [lmLoop, if_pos h]

/-- Reading every position of a list in order rebuilds the list. -/
theorem ofFn_getD (l : List ℚ) : List.ofFn (fun i : Fin l.length => l.getD i 0) = l := by
  have hfn : (fun i : Fin l.length => l.getD (i : ℕ) 0) = l.get := by
    funext i
    rw [List.getD_eq_getElem l 0 i.isLt]
    exact (List.get_eq_getElem l i).symm
  rw [hfn, List.ofFn_get]

/-- A run whose initial error already meets the tolerance stops at once with
the unperturbed parameters, the initial error, and zero iterations. -/
theorem lmRun_converged {n p : ℕ} (cfg : LMConfig n p)
    (h : errorCalculation cfg.x cfg.y cfg.parameters cfg.parameterizedFunction
      cfg.weightSquare ≤ cfg.errorTolerance) :
    lmRun cfg = Except.ok (cfg.parameters,
      errorCalculation cfg.x cfg.y cfg.parameters cfg.parameterizedFunction
        cfg.weightSquare, 0) := by
  simp only [lmRun]
  rw [lmLoop_converged cfg _ 0 cfg.maxIterations h]

/-- C10: for every valid input whose initial error at the resolved initial
parameters already meets `errorTolerance`, the fit returns immediately —
whatever the clock oracle — with `iterations = 0`, the unperturbed resolved
initial parameter values, and that initial error. -/
theorem levenbergMarquardt_initially_converged (data : RawData) (arity : ℕ)
    (f : List ℚ → ℚ → ℚ) (options : RawOptions) (clock : ℕ → Bool) (c : Config)
    (hc : checkOptions data arity options = Except.ok c)
    (hconv : errorCalculation (fun i : Fin data.x.length => data.x.getD i 0)
        (fun i => data.y.getD i 0)
        (fun k : Fin c.parameters.length => c.parameters.getD k 0)
        (fun ps t => f (List.ofFn ps) t)
        (fun i => c.weightSquare.getD i 0) ≤ c.errorTolerance) :
    levenbergMarquardt data arity f options clock =
      Except.ok ⟨c.parameters,
        errorCalculation (fun i : Fin data.x.length => data.x.getD i 0)
          (fun i => data.y.getD i 0)
          (fun k : Fin c.parameters.length => c.parameters.getD k 0)
          (fun ps t => f (List.ofFn ps) t)
          (fun i => c.weightSquare.getD i 0), 0⟩ := by
  have hconv' : errorCalculation (toLMConfig data f c clock).x (toLMConfig data f c clock).y
      (toLMConfig data f c clock).parameters (toLMConfig data f c clock).parameterizedFunction
      (toLMConfig data f c clock).weightSquare ≤ (toLMConfig data f c clock).errorTolerance :=
    hconv
  simp only [levenbergMarquardt, hc]
  rw [lmRun_converged (toLMConfig data f c clock) hconv']
  simp [toLMConfig, ofFn_getD]

/-- The resolved configuration of the C10 witness call. -/
def cWitnessC10 : Config where
  timeout := none
  minValues := [minSafeInteger]
  maxValues := [maxSafeInteger]
  parameters := [0]
  weightSquare := [1, 1]
  damping := 1 / 100
  dampingStepUp := 11
  dampingStepDown := 9
  maxIterations := 100
  errorTolerance := 1 / 10 ^ 7
  centralDifference := false
  gradientDifference := [1 / 10]
  improvementThreshold := 1 / 10 ^ 3

/-- Witness for C10: fitting `y = a·x` to all-zero observations from
`a = 0` starts with error `0 ≤ 1e-7` and returns at once. -/
theorem levenbergMarquardt_initially_converged_witness :
    levenbergMarquardt ⟨[0, 1], [0, 0]⟩ 1 (fun ps t => ps.getD 0 0 * t)
      { initialValues := some [0] } (fun _ => true) = Except.ok ⟨[0], 0, 0⟩ := by
  have happ := levenbergMarquardt_initially_converged ⟨[0, 1], [0, 0]⟩ 1
    (fun ps t => ps.getD 0 0 * t) { initialValues := some [0] } (fun _ => true)
    cWitnessC10
    (by norm_num [checkOptions, cWitnessC10, List.range_succ])
    (by
      rw [errorCalculation]
      refine le_trans (le_of_eq (Finset.sum_eq_zero fun i _ => ?_)) (by norm_num [cWitnessC10])
      fin_cases i <;> norm_num [cWitnessC10, List.ofFn_succ])
  rw [happ]
  norm_num [errorCalculation, cWitnessC10]
  exact Finset.sum_eq_zero fun i _ => by fin_cases i <;> norm_num [cWitnessC10, List.ofFn_succ]

/-- C9: once the entry validations pass (and weights are well-formed, since
a malformed weights option throws later in the same call), the
`gradientDifference` option is normalized as follows: a single number is
broadcast to a parameter-count sequence of that value; a nonempty sequence
whose length mismatches the parameter count is replaced by a parameter-count
sequence filled with its first element; any other value raises the
gradient-difference input error. -/
theorem checkOptions_gradientDifference_normalized (data : RawData) (arity : ℕ)
    (options : RawOptions) (hd : ¬ options.damping ≤ 0)
    (hlen : ¬ (data.x.length < 2 ∨ data.y.length < 2))
    (hxy : data.x.length = data.y.length)
    (hmin : options.minValues = none) (hmax : options.maxValues = none)
    (hw : options.weights ≠ NumOrList.other) :
    (∀ g, options.gradientDifference = NumOrList.num g →
      Except.map Config.gradientDifference (checkOptions data arity options) =
        Except.ok (List.replicate
          (options.initialValues.getD (List.replicate arity 1)).length g))
    ∧ (∀ g rest, options.gradientDifference = NumOrList.arr (g :: rest) →
        (g :: rest).length ≠ (options.initialValues.getD (List.replicate arity 1)).length →
        Except.map Config.gradientDifference (checkOptions data arity options) =
          Except.ok (List.replicate
            (options.initialValues.getD (List.replicate arity 1)).length g))
    ∧ (options.gradientDifference = NumOrList.other →
        checkOptions data arity options = Except.error
          "gradientDifference should be a number or array with length equal to the number of parameters") := by
  rw [not_or] at hlen
  obtain ⟨hl1, hl2⟩ := hlen
  refine ⟨?_, ?_, ?_⟩
  · intro g hgd
    cases hw0 : options.weights with
    | num w => simp [checkOptions, hgd, hd, hl1, hl2, hxy, hmin, hmax, hw0, Except.map]
    | arr l =>
      simp [checkOptions, hgd, hd, hl1, hl2, hxy, hmin, hmax, hw0]
      split <;> simp [Except.map]
    | other => exact absurd hw0 hw
  · intro g rest hgd hne
    cases hw0 : options.weights with
    | num w =>
      simp [checkOptions, hgd, hd, hl1, hl2, hxy, hmin, hmax, hw0, hne, Except.map]
      exact fun hcontra => absurd hcontra (by simpa using hne)
    | arr l =>
      simp [checkOptions, hgd, hd, hl1, hl2, hxy, hmin, hmax, hw0, hne]
      split <;> simp [Except.map] <;>
        exact fun hcontra => absurd hcontra (by simpa using hne)
    | other => exact absurd hw0 hw
  · intro hgd
    simp [checkOptions, hgd, hd, hl1, hl2, hxy, hmin, hmax]

/-- Witness for C9: two resolved parameters, a one-element
`gradientDifference` array (mismatched length). -/
theorem checkOptions_gradientDifference_normalized_witness :
    (∀ g, (({ gradientDifference := NumOrList.arr [5] } : RawOptions)).gradientDifference =
        NumOrList.num g →
      Except.map Config.gradientDifference (checkOptions ⟨[0, 1], [1, 2]⟩ 2
        { gradientDifference := NumOrList.arr [5] }) =
        Except.ok (List.replicate
          ((({ gradientDifference := NumOrList.arr [5] } : RawOptions)).initialValues.getD
            (List.replicate 2 1)).length g))
    ∧ (∀ g rest, (({ gradientDifference := NumOrList.arr [5] } : RawOptions)).gradientDifference
        = NumOrList.arr (g :: rest) →
        (g :: rest).length ≠ ((({ gradientDifference := NumOrList.arr [5] } :
          RawOptions)).initialValues.getD (List.replicate 2 1)).length →
        Except.map Config.gradientDifference (checkOptions ⟨[0, 1], [1, 2]⟩ 2
          { gradientDifference := NumOrList.arr [5] }) =
          Except.ok (List.replicate
            ((({ gradientDifference := NumOrList.arr [5] } : RawOptions)).initialValues.getD
              (List.replicate 2 1)).length g))
    ∧ ((({ gradientDifference := NumOrList.arr [5] } : RawOptions)).gradientDifference =
        NumOrList.other →
        checkOptions ⟨[0, 1], [1, 2]⟩ 2 { gradientDifference := NumOrList.arr [5] } =
          Except.error
            "gradientDifference should be a number or array with length equal to the number of parameters") :=
  checkOptions_gradientDifference_normalized ⟨[0, 1], [1, 2]⟩ 2
    { gradientDifference := NumOrList.arr [5] } (by norm_num) (by norm_num) rfl rfl rfl
    (by decide)

/-- A nonempty all-equal weights array resolves to the same configuration as
the scalar weight with that value: every `weightSquare` entry is `1/w²` in
both cases, whichever broadcast branch fires. -/
theorem checkOptions_uniform_weights (data : RawData) (arity : ℕ) (options : RawOptions)
    (w : ℚ) (l : List ℚ) (hne : l ≠ []) (hall : ∀ q ∈ l, q = w) :
    checkOptions data arity { options with weights := NumOrList.arr l } =
      checkOptions data arity { options with weights := NumOrList.num w } := by
  have hhead : l.headD 0 = w := by
    cases l with
    | nil => exact absurd rfl hne
    | cons q rest => exact hall q (List.mem_cons_self q rest)
  by_cases hd : options.damping ≤ 0
  · simp [checkOptions, hd]
  by_cases hl1 : data.x.length < 2 ∨ data.y.length < 2
  · simp [checkOptions, hd, hl1]
  by_cases hxy : data.x.length ≠ data.y.length
  · simp [checkOptions, hd, hl1, hxy]
  by_cases hmm : (options.maxValues.getD (List.replicate
      (options.initialValues.getD (List.replicate arity 1)).length maxSafeInteger)).length ≠
    (options.minValues.getD (List.replicate
      (options.initialValues.getD (List.replicate arity 1)).length minSafeInteger)).length
  · rw [not_or] at hl1
    obtain ⟨hla, hlb⟩ := hl1
    simp [checkOptions, hd, hla, hlb, hxy, hmm]
  rw [not_or] at hl1
  obtain ⟨hla, hlb⟩ := hl1
  have hxy' : data.x.length = data.y.length := not_ne_iff.mp hxy
  have hfix : l.head?.getD 0 ^ 2 = w ^ 2 := by
    cases l with
    | nil => exact absurd rfl hne
    | cons q rest =>
      have : q = w := hall q (List.mem_cons_self q rest)
      simp [this]
  by_cases hll : l.length < data.x.length
  · cases hgd : options.gradientDifference with
    | other => simp [checkOptions, hd, hla, hlb, hxy, hmm, hgd]
    | num g =>
      simp [checkOptions, hd, hla, hlb, hxy, hmm, hgd, hll]
      exact Or.inr hfix
    | arr gl =>
      simp [checkOptions, hd, hla, hlb, hxy, hmm, hgd, hll]
      exact Or.inr hfix
  · have key : List.map (fun i => (l[i]?.getD 0 ^ 2)⁻¹) (List.range data.y.length) =
        List.replicate data.y.length (w ^ 2)⁻¹ := by
      refine List.eq_replicate_iff.mpr ⟨by simp, ?_⟩
      intro b hb
      rw [List.mem_map] at hb
      obtain ⟨i, hi, rfl⟩ := hb
      rw [List.mem_range] at hi
      have hil : i < l.length := by omega
      rw [List.getElem?_eq_getElem hil]
      simp only [Option.getD_some]
      rw [hall _ (List.getElem_mem hil)]
    cases hgd : options.gradientDifference with
    | other => simp [checkOptions, hd, hla, hlb, hxy, hmm, hgd]
    | num g =>
      simp [checkOptions, hd, hla, hlb, hxy, hmm, hgd, hll]
      exact key
    | arr gl =>
      simp [checkOptions, hd, hla, hlb, hxy, hmm, hgd, hll]
      exact key

/-- C8: for every sample set, model function, and weight value `w`, running
the fit with a (nonempty) weight vector whose entries all equal `w` produces
exactly the same result — parameter values, error and iteration count alike —
as running it with the scalar weight `w`. -/
theorem levenbergMarquardt_uniform_weights (data : RawData) (arity : ℕ)
    (f : List ℚ → ℚ → ℚ) (options : RawOptions) (clock : ℕ → Bool) (w : ℚ) (l : List ℚ)
    (hne : l ≠ []) (hall : ∀ q ∈ l, q = w) :
    levenbergMarquardt data arity f { options with weights := NumOrList.arr l } clock =
      levenbergMarquardt data arity f { options with weights := NumOrList.num w } clock := by
  rw [levenbergMarquardt, levenbergMarquardt,
    checkOptions_uniform_weights data arity options w l hne hall]

/-- Witness for C8: weight vector `[2, 2]` against scalar weight `2`. -/
theorem levenbergMarquardt_uniform_weights_witness :
    levenbergMarquardt ⟨[0, 1], [1, 2]⟩ 1 (fun ps t => ps.getD 0 0 * t)
      { weights := NumOrList.arr [2, 2] } (fun _ => false) =
      levenbergMarquardt ⟨[0, 1], [1, 2]⟩ 1 (fun ps t => ps.getD 0 0 * t)
        { weights := NumOrList.num 2 } (fun _ => false) :=
  levenbergMarquardt_uniform_weights ⟨[0, 1], [1, 2]⟩ 1 (fun ps t => ps.getD 0 0 * t)
    {} (fun _ => false) 2 [2, 2] (by simp) (by simp)

/-! ### NaN-aware model of the loop

The exact-arithmetic model above cannot produce a non-finite error, so the
divergence claim is settled on this second copy of the numeric engine, whose
scalars carry JavaScript's special values explicitly: a number is either a
finite exact rational, `+Infinity`, `-Infinity`, or `NaN`.  The special-value
rules of the arithmetic below are the exact IEEE/JavaScript ones (`∞ - ∞ =
NaN`, `0 · ∞ = NaN`, `x / 0 = ±∞` for `x ≠ 0` and `NaN` for `x = 0`,
`Math.min`/`Math.max` propagate `NaN`, every comparison with `NaN` is false,
`-∞ <= t` is true, `+∞ > t` is true); the two idealizations are the same as
in the main model — finite arithmetic is exact (no rounding, so no overflow
to infinity) — plus the identification of `-0` with `+0` (a zero divisor is
treated as `+0`).  Crucially, `isNaN` is true of `NaN` only, not of the
infinities, so this model separates the source's `if (isNaN(error)) break`
from mere non-finiteness. -/

/-- A JavaScript number: a finite exact rational or a special value. -/
inductive RN where
  | fin (q : ℚ)
  | posInf
  | negInf
  | nan
deriving DecidableEq

/-- `isNaN`: true of `NaN` only — `isNaN(Infinity)` is false. -/
def RN.isNaN : RN → Bool
  | RN.nan => true
  | _ => false

/-- Finiteness probe (used only by the modelled external inverse). -/
def RN.isFinite : RN → Bool
  | RN.fin _ => true
  | _ => false

/-- The finite payload, `0` for special values. -/
def RN.toRat : RN → ℚ
  | RN.fin q => q
  | _ => 0

/-- Addition: `NaN` absorbs, `∞ + (-∞) = NaN`, an infinity absorbs finite
summands. -/
def nadd : RN → RN → RN
  | RN.nan, _ => RN.nan
  | _, RN.nan => RN.nan
  | RN.posInf, RN.negInf => RN.nan
  | RN.negInf, RN.posInf => RN.nan
  | RN.posInf, _ => RN.posInf
  | _, RN.posInf => RN.posInf
  | RN.negInf, _ => RN.negInf
  | _, RN.negInf => RN.negInf
  | RN.fin a, RN.fin b => RN.fin (a + b)

/-- Subtraction: `NaN` absorbs, `∞ - ∞ = NaN` for equal signs, an infinity
dominates a finite operand. -/
def nsub : RN → RN → RN
  | RN.nan, _ => RN.nan
  | _, RN.nan => RN.nan
  | RN.posInf, RN.posInf => RN.nan
  | RN.negInf, RN.negInf => RN.nan
  | RN.posInf, _ => RN.posInf
  | RN.negInf, _ => RN.negInf
  | _, RN.posInf => RN.negInf
  | _, RN.negInf => RN.posInf
  | RN.fin a, RN.fin b => RN.fin (a - b)

/-- Multiplication: `NaN` absorbs, `0 · ∞ = NaN`, otherwise signs multiply. -/
def nmul : RN → RN → RN
  | RN.nan, _ => RN.nan
  | _, RN.nan => RN.nan
  | RN.posInf, RN.posInf => RN.posInf
  | RN.posInf, RN.negInf => RN.negInf
  | RN.negInf, RN.posInf => RN.negInf
  | RN.negInf, RN.negInf => RN.posInf
  | RN.posInf, RN.fin b => if b = 0 then RN.nan else if 0 < b then RN.posInf else RN.negInf
  | RN.fin a, RN.posInf => if a = 0 then RN.nan else if 0 < a then RN.posInf else RN.negInf
  | RN.negInf, RN.fin b => if b = 0 then RN.nan else if 0 < b then RN.negInf else RN.posInf
  | RN.fin a, RN.negInf => if a = 0 then RN.nan else if 0 < a then RN.negInf else RN.posInf
  | RN.fin a, RN.fin b => RN.fin (a * b)

/-- Division: `NaN` absorbs, `∞ / ∞ = NaN`, `x / 0` is `NaN` for `x = 0`
and a sign-matching infinity otherwise (the zero divisor counts as `+0`),
`x / ∞ = 0`. -/
def ndiv : RN → RN → RN
  | RN.nan, _ => RN.nan
  | _, RN.nan => RN.nan
  | RN.posInf, RN.posInf => RN.nan
  | RN.posInf, RN.negInf => RN.nan
  | RN.negInf, RN.posInf => RN.nan
  | RN.negInf, RN.negInf => RN.nan
  | RN.posInf, RN.fin b => if 0 ≤ b then RN.posInf else RN.negInf
  | RN.negInf, RN.fin b => if 0 ≤ b then RN.negInf else RN.posInf
  | RN.fin _, RN.posInf => RN.fin 0
  | RN.fin _, RN.negInf => RN.fin 0
  | RN.fin a, RN.fin b =>
    if b = 0 then
      if a = 0 then RN.nan else if 0 < a then RN.posInf else RN.negInf
    else RN.fin (a / b)

/-- `Math.pow(d, 2)`. -/
def npow2 (a : RN) : RN := nmul a a

/-- `Math.min`; NaN-propagating. -/
def nmin : RN → RN → RN
  | RN.nan, _ => RN.nan
  | _, RN.nan => RN.nan
  | RN.negInf, _ => RN.negInf
  | _, RN.negInf => RN.negInf
  | RN.posInf, b => b
  | a, RN.posInf => a
  | RN.fin a, RN.fin b => RN.fin (min a b)

/-- `Math.max`; NaN-propagating. -/
def nmax : RN → RN → RN
  | RN.nan, _ => RN.nan
  | _, RN.nan => RN.nan
  | RN.posInf, _ => RN.posInf
  | _, RN.posInf => RN.posInf
  | RN.negInf, b => b
  | a, RN.negInf => a
  | RN.fin a, RN.fin b => RN.fin (max a b)

/-- `error <= errorTolerance` (tolerance finite): false on `NaN` and `+∞`,
true on `-∞`. -/
def nle (a : RN) (t : ℚ) : Bool :=
  match a with
  | RN.fin q => decide (q ≤ t)
  | RN.posInf => false
  | RN.negInf => true
  | RN.nan => false

/-- `improvementMetric > improvementThreshold` (threshold finite): false on
`NaN` and `-∞`, true on `+∞`. -/
def ngt (a : RN) (t : ℚ) : Bool :=
  match a with
  | RN.fin q => decide (t < q)
  | RN.posInf => true
  | RN.negInf => false
  | RN.nan => false

/-- Sum of a list of NaN-aware numbers, left to right from `0`. -/
def nsum (l : List RN) : RN := l.foldl nadd (RN.fin 0)

/-- Matrix product over NaN-aware numbers. -/
def nmatMul {a b c : ℕ} (A : Matrix (Fin a) (Fin b) RN) (B : Matrix (Fin b) (Fin c) RN) :
    Matrix (Fin a) (Fin c) RN :=
  Matrix.of fun i j => nsum ((List.finRange b).map fun k => nmul (A i k) (B k j))

/-- Entrywise matrix sum over NaN-aware numbers. -/
def nmatAdd {a b : ℕ} (A B : Matrix (Fin a) (Fin b) RN) : Matrix (Fin a) (Fin b) RN :=
  Matrix.of fun i j => nadd (A i j) (B i j)

/-- Row scaling by finite weights. -/
def nscaleRows {m k : ℕ} (w : Fin m → ℚ) (M : Matrix (Fin m) (Fin k) RN) :
    Matrix (Fin m) (Fin k) RN :=
  Matrix.of fun i j => nmul (RN.fin (w i)) (M i j)

/-- Scalar multiple by a finite scalar (`mulS`). -/
def nmulS {a b : ℕ} (q : ℚ) (M : Matrix (Fin a) (Fin b) RN) : Matrix (Fin a) (Fin b) RN :=
  Matrix.of fun i j => nmul (RN.fin q) (M i j)

/-- `Matrix.eye(p, p, damping)` with finite entries. -/
def neye (p : ℕ) (value : ℚ) : Matrix (Fin p) (Fin p) RN :=
  Matrix.of fun i j => if i = j then RN.fin value else RN.fin 0

/-- Modelled from the spec: `mlMatrix.inverse`, the dense inverse of the
external `ml-matrix` library (its LU-based code is not part of this
repository).  Spec §4.4: "if `A` is singular or near-singular, inversion
yields non-finite entries; this propagates to a non-finite error score" — so
a singular matrix, or one already holding a non-finite entry, inverts to
all-non-finite, and an invertible finite matrix to its exact inverse. -/
def ninverse {q : ℕ} (A : Matrix (Fin q) (Fin q) RN) : Matrix (Fin q) (Fin q) RN :=
  if (∀ i j, (A i j).isFinite) ∧ (Matrix.of fun i j : Fin q => (A i j).toRat).det ≠ 0 then
    Matrix.of fun i j => RN.fin (matInv (Matrix.of fun i j : Fin q => (A i j).toRat) i j)
  else
    Matrix.of fun _ _ => RN.nan

/-- The NaN-aware resolved numeric state. -/
structure LMConfigN (n p : ℕ) where
  x : Fin n → ℚ
  y : Fin n → ℚ
  parameterizedFunction : (Fin p → RN) → RN → RN
  weightSquare : Fin n → ℚ
  minValues : Fin p → ℚ
  maxValues : Fin p → ℚ
  parameters : Fin p → ℚ
  damping : ℚ
  dampingStepUp : ℚ
  dampingStepDown : ℚ
  maxIterations : ℕ
  errorTolerance : ℚ
  centralDifference : Bool
  gradientDifference : Fin p → ℚ
  improvementThreshold : ℚ
  clock : ℕ → Bool

/-- The NaN-aware loop state: the parameter vector may hold non-finite
entries once a bad perturbation has been clamped in. -/
structure LMStateN (p : ℕ) where
  parameters : Fin p → RN
  error : RN
  damping : ℚ

/-- `errorCalculation` with NaN propagation. -/
def errorCalculationN {n p : ℕ} (x y : Fin n → ℚ) (parameters : Fin p → RN)
    (parameterizedFunction : (Fin p → RN) → RN → RN) (weightSquare : Fin n → ℚ) : RN :=
  (List.finRange n).foldl
    (fun error i =>
      nadd error
        (ndiv (npow2 (nsub (RN.fin (y i)) (parameterizedFunction parameters (RN.fin (x i)))))
          (RN.fin (weightSquare i))))
    (RN.fin 0)

/-- `gradientFunction`'s difference row with NaN propagation. -/
def gradientRowN {n p : ℕ} (x : Fin n → ℚ) (evaluatedData : Fin n → RN)
    (params : Fin p → RN) (gradientDifference : Fin p → ℚ)
    (paramFunction : (Fin p → RN) → RN → RN) (centralDifference : Bool)
    (param : Fin p) : Fin n → RN :=
  let delta := gradientDifference param
  let funcParam := paramFunction
    (Function.update params param (nadd (params param) (RN.fin delta)))
  if ¬centralDifference then
    fun point => ndiv (nsub (evaluatedData point) (funcParam (RN.fin (x point)))) (RN.fin delta)
  else
    let funcParam2 := paramFunction
      (Function.update params param (nsub (params param) (RN.fin delta)))
    fun point =>
      ndiv (nsub (funcParam2 (RN.fin (x point))) (funcParam (RN.fin (x point)))) (RN.fin (2 * delta))

/-- `gradientFunction` with NaN propagation (same `rowIndex` packing). -/
def gradientFunctionN {n p : ℕ} (x : Fin n → ℚ) (evaluatedData : Fin n → RN)
    (params : Fin p → RN) (gradientDifference : Fin p → ℚ)
    (paramFunction : (Fin p → RN) → RN → RN) (centralDifference : Bool) :
    Matrix (Fin p) (Fin n) RN :=
  (List.foldl
    (fun (st : ℕ × Matrix (Fin p) (Fin n) RN) (param : Fin p) =>
      if gradientDifference param = 0 then st
      else
        (st.1 + 1,
          if h : st.1 < p then
            st.2.updateRow ⟨st.1, h⟩
              (gradientRowN x evaluatedData params gradientDifference paramFunction
                centralDifference param)
          else st.2))
    (0, Matrix.of fun _ _ => RN.fin 0) (List.finRange p)).2

/-- `step`'s perturbation vector and weighted Jacobian–residual product with
NaN propagation. -/
def stepN {n p : ℕ} (cfg : LMConfigN n p) (params : Fin p → RN) (damping : ℚ) :
    Matrix (Fin p) (Fin 1) RN × Matrix (Fin p) (Fin 1) RN :=
  let evaluatedData : Fin n → RN := fun i => cfg.parameterizedFunction params (RN.fin (cfg.x i))
  let gradientFunc := gradientFunctionN cfg.x evaluatedData params cfg.gradientDifference
    cfg.parameterizedFunction cfg.centralDifference
  let residualError : Matrix (Fin n) (Fin 1) RN :=
    Matrix.of fun point _ => nsub (RN.fin (cfg.y point)) (evaluatedData point)
  let inverseMatrix := ninverse
    (nmatAdd (neye p damping)
      (nmatMul gradientFunc (nscaleRows cfg.weightSquare gradientFunc.transpose)))
  let jacobianWeigthResidualError :=
    nmatMul gradientFunc (nscaleRows cfg.weightSquare residualError)
  (nmatMul inverseMatrix jacobianWeigthResidualError, jacobianWeigthResidualError)

/-- The clamped trial parameters of one NaN-aware loop body. -/
def lmNewParamsN {n p : ℕ} (cfg : LMConfigN n p) (s : LMStateN p) : Fin p → RN :=
  fun k =>
    nmin
      (nmax (RN.fin (cfg.minValues k))
        (nsub (s.parameters k) ((stepN cfg s.parameters s.damping).1 k 0)))
      (RN.fin (cfg.maxValues k))

/-- The error recomputed on the NaN-aware clamped trial parameters. -/
def lmNewErrorN {n p : ℕ} (cfg : LMConfigN n p) (s : LMStateN p) : RN :=
  errorCalculationN cfg.x cfg.y (lmNewParamsN cfg s) cfg.parameterizedFunction
    cfg.weightSquare

/-- Outcome of one NaN-aware loop body: `brk` is the `if (isNaN(error))
break;` path. -/
inductive LMIterResultN (p : ℕ) where
  | brk (parameters : Fin p → RN) (error : RN)
  | next (s : LMStateN p)
  | timeout

/-- One NaN-aware loop body: update and clamp, rescore, break if the new
error is non-finite, otherwise accept or reject and adapt damping, then
consult the timeout. -/
def lmIterN {n p : ℕ} (cfg : LMConfigN n p) (s : LMStateN p) (iteration : ℕ) :
    LMIterResultN p :=
  let newParams := lmNewParamsN cfg s
  let newError := lmNewErrorN cfg s
  if newError.isNaN then LMIterResultN.brk newParams newError
  else
    let perturbations := (stepN cfg s.parameters s.damping).1
    let jacobianWeigthResidualError := (stepN cfg s.parameters s.damping).2
    let improvementMetric := ndiv (nsub s.error newError)
      ((nmatMul perturbations.transpose
        (nmatAdd (nmulS s.damping perturbations) jacobianWeigthResidualError)) 0 0)
    let newState : LMStateN p :=
      if ngt improvementMetric cfg.improvementThreshold then
        { parameters := newParams
          error := newError
          damping := max (s.damping / cfg.dampingStepDown) (1 / 10 ^ 7) }
      else
        { parameters := newParams
          error := s.error
          damping := min (s.damping * cfg.dampingStepUp) (10 ^ 7) }
    if cfg.clock iteration then LMIterResultN.timeout else LMIterResultN.next newState

/-- The NaN-aware loop with remaining-budget fuel: a `brk` outcome leaves
the `for` loop at once — without the `iteration++` increment — and the
function returns the current (clamped) parameters and the non-finite error
as its ordinary result. -/
def lmLoopN {n p : ℕ} (cfg : LMConfigN n p) (s : LMStateN p) (iteration : ℕ) :
    (fuel : ℕ) → Except String ((Fin p → RN) × RN × ℕ)
  | 0 => Except.ok (s.parameters, s.error, iteration)
  | fuel + 1 =>
    if nle s.error cfg.errorTolerance then Except.ok (s.parameters, s.error, iteration)
    else
      match lmIterN cfg s iteration with
      | LMIterResultN.brk parameters error => Except.ok (parameters, error, iteration)
      | LMIterResultN.timeout => Except.error "The execution time is over"
      | LMIterResultN.next s' => lmLoopN cfg s' (iteration + 1) fuel

theorem RN.isNaN_iff (a : RN) : a.isNaN = true ↔ a = RN.nan := by
  cases a <;> simp [RN.isNaN]

theorem lmLoopN_zero {n p : ℕ} (cfg : LMConfigN n p) (s : LMStateN p) (iteration : ℕ) :
    lmLoopN cfg s iteration 0 = Except.ok (s.parameters, s.error, iteration) := rfl

/-- NaN-aware configuration refuting C5 as stated: the model returns the
sample value at the initial parameter vector and `+Infinity` anywhere else,
so the first trial step drives the recomputed error to `+Infinity` — a
non-finite value that is not `NaN`. -/
def cfgCounterC5 : LMConfigN 2 1 where
  x := ![0, 1]
  y := ![1, 2]
  parameterizedFunction := fun ps t => if ps 0 = RN.fin 1 then t else RN.posInf
  weightSquare := ![1, 1]
  minValues := ![-1000]
  maxValues := ![1000]
  parameters := ![1]
  damping := 1
  dampingStepUp := 11
  dampingStepDown := 9
  maxIterations := 1
  errorTolerance := 0
  centralDifference := false
  gradientDifference := ![1]
  improvementThreshold := 0
  clock := fun _ => false

/-- Counterexample to C5 as stated: the initial error is the finite `2`; at
iteration 0 the recomputed error becomes `+Infinity` — non-finite but not
`NaN`, so `isNaN(error)` does not fire — and the loop does *not* exit with
the non-finite error: the step is rejected, the recorded error reverts to
`2`, and the run returns normally with the finite error `2` and a counted
iteration. -/
theorem lmLoopN_infinity_error_continues_counterexample :
    errorCalculationN cfgCounterC5.x cfgCounterC5.y (fun _ => RN.fin 1)
        cfgCounterC5.parameterizedFunction cfgCounterC5.weightSquare = RN.fin 2
    ∧ lmNewErrorN cfgCounterC5 ⟨fun _ => RN.fin 1, RN.fin 2, 1⟩ = RN.posInf
    ∧ RN.posInf.isFinite = false
    ∧ RN.posInf.isNaN = false
    ∧ lmLoopN cfgCounterC5 ⟨fun _ => RN.fin 1, RN.fin 2, 1⟩ 0 (0 + 1) =
        Except.ok (lmNewParamsN cfgCounterC5 ⟨fun _ => RN.fin 1, RN.fin 2, 1⟩, RN.fin 2, 1)
    ∧ RN.fin 2 ≠ RN.posInf := by
  have hfR2 : List.finRange 2 = [0, 1] := by decide
  have hfR1 : List.finRange 1 = [0] := by decide
  have herr0 : errorCalculationN cfgCounterC5.x cfgCounterC5.y (fun _ => RN.fin 1)
      cfgCounterC5.parameterizedFunction cfgCounterC5.weightSquare = RN.fin 2 := by
    rw [errorCalculationN, hfR2]
    norm_num [cfgCounterC5, nadd, nsub, ndiv, npow2, nmul]
  have hJ : gradientFunctionN cfgCounterC5.x
      (fun i => cfgCounterC5.parameterizedFunction (fun _ => RN.fin 1)
        (RN.fin (cfgCounterC5.x i)))
      (fun _ => RN.fin 1) cfgCounterC5.gradientDifference
      cfgCounterC5.parameterizedFunction cfgCounterC5.centralDifference =
      Matrix.of fun _ _ => RN.negInf := by
    rw [gradientFunctionN, hfR1]
    norm_num [cfgCounterC5, gradientRowN]
    ext i j
    have hi0 : i = 0 := Subsingleton.elim _ _
    rw [hi0, Matrix.updateRow_self]
    fin_cases j <;>
      norm_num [cfgCounterC5, Function.update, nadd, nsub, ndiv, Matrix.of_apply]
  have hA : nmatAdd (neye 1 (1 : ℚ))
      (nmatMul (Matrix.of fun _ _ => RN.negInf : Matrix (Fin 1) (Fin 2) RN)
        (nscaleRows cfgCounterC5.weightSquare
          (Matrix.of fun _ _ => RN.negInf : Matrix (Fin 1) (Fin 2) RN).transpose)) =
      Matrix.of fun _ _ => RN.posInf := by
    ext i j
    fin_cases i
    fin_cases j
    norm_num [nmatAdd, nmatMul, neye, nscaleRows, nsum, hfR2, nadd, nmul, cfgCounterC5,
      Matrix.of_apply, Matrix.transpose_apply]
  have hinv : ninverse (Matrix.of fun _ _ => RN.posInf : Matrix (Fin 1) (Fin 1) RN) =
      Matrix.of fun _ _ => RN.nan := by
    rw [ninverse, if_neg]
    intro hcond
    have := hcond.1 0 0
    simp [RN.isFinite, Matrix.of_apply] at this
  have hjwre : (stepN cfgCounterC5 (fun _ => RN.fin 1) 1).2 =
      Matrix.of fun _ _ => RN.negInf := by
    simp only [stepN]
    rw [hJ]
    ext i j
    fin_cases i
    fin_cases j
    norm_num [nmatMul, nscaleRows, nsum, hfR2, nadd, nmul, nsub, cfgCounterC5,
      Matrix.of_apply, Matrix.transpose_apply]
  have hpert : (stepN cfgCounterC5 (fun _ => RN.fin 1) 1).1 =
      Matrix.of fun _ _ => RN.nan := by
    simp only [stepN]
    rw [hJ, hA, hinv]
    ext i j
    fin_cases i
    fin_cases j
    norm_num [nmatMul, nscaleRows, nsum, hfR1, hfR2, nadd, nmul, nsub, cfgCounterC5,
      Matrix.of_apply, Matrix.transpose_apply]
  have hnewp : lmNewParamsN cfgCounterC5 ⟨fun _ => RN.fin 1, RN.fin 2, 1⟩ =
      fun _ => RN.nan := by
    funext k
    simp only [lmNewParamsN]
    rw [hpert]
    fin_cases k
    norm_num [cfgCounterC5, nmin, nmax, nsub, Matrix.of_apply]
  have hfnan : ∀ t, cfgCounterC5.parameterizedFunction (fun _ => RN.nan) t = RN.posInf :=
    fun t => rfl
  have hnewerr : lmNewErrorN cfgCounterC5 ⟨fun _ => RN.fin 1, RN.fin 2, 1⟩ =
      RN.posInf := by
    rw [lmNewErrorN, hnewp, errorCalculationN, hfR2]
    simp only [List.foldl_cons, List.foldl_nil, hfnan]
    norm_num [nadd, nsub, ndiv, npow2, nmul, cfgCounterC5]
  have hiter : lmIterN cfgCounterC5 ⟨fun _ => RN.fin 1, RN.fin 2, 1⟩ 0 =
      LMIterResultN.next
        ⟨lmNewParamsN cfgCounterC5 ⟨fun _ => RN.fin 1, RN.fin 2, 1⟩, RN.fin 2, 11⟩ := by
    simp only [lmIterN]
    rw [hnewerr, hpert, hjwre]
    norm_num [cfgCounterC5, RN.isNaN, ngt, nmatMul, nmatAdd, nmulS, nsum, hfR1, nadd,
      nmul, nsub, ndiv, Matrix.of_apply, Matrix.transpose_apply]
  refine ⟨herr0, hnewerr, rfl, rfl, ?_, by decide⟩
  rw [lmLoopN]
  rw [if_neg
    (by norm_num [nle, cfgCounterC5] : ¬ nle (RN.fin 2 : RN) cfgCounterC5.errorTolerance = true)]
  rw [hiter]
  simp [lmLoopN_zero]

/-- C5 (amended): whenever the recomputed error of an executing iteration is
`NaN` — this and only this is what `isNaN(error)` detects; a `±Infinity`
error instead rejects the step and continues, see the counterexample — the
loop exits silently, no error raised, returning the last clamped (possibly
invalid) parameter vector together with the `NaN` error, without reverting
the parameters and without counting the broken iteration. -/
theorem lmLoopN_nan_error_exits {n p : ℕ} (cfg : LMConfigN n p) (s : LMStateN p)
    (iteration fuel : ℕ) (hrun : nle s.error cfg.errorTolerance = false)
    (hnan : (lmNewErrorN cfg s).isNaN = true) :
    lmLoopN cfg s iteration (fuel + 1) =
      Except.ok (lmNewParamsN cfg s, RN.nan, iteration) := by
  rw [lmLoopN, if_neg (by rw [hrun]; exact Bool.false_ne_true)]
  have hiter : lmIterN cfg s iteration =
      LMIterResultN.brk (lmNewParamsN cfg s) (lmNewErrorN cfg s) := by
    simp only [lmIterN]
    rw [if_pos hnan]
  rw [hiter, (RN.isNaN_iff _).mp hnan]

/-- NaN-aware configuration for the C5 witness: the model function returns
`NaN` everywhere. -/
def cfgWitnessC5 : LMConfigN 2 1 where
  x := ![0, 1]
  y := ![1, 2]
  parameterizedFunction := fun _ _ => RN.nan
  weightSquare := ![1, 1]
  minValues := ![-1000]
  maxValues := ![1000]
  parameters := ![1]
  damping := 1
  dampingStepUp := 11
  dampingStepDown := 9
  maxIterations := 100
  errorTolerance := 0
  centralDifference := false
  gradientDifference := ![1]
  improvementThreshold := 0
  clock := fun _ => false

/-- Witness for the amended C5 at a concrete NaN-diverged iteration. -/
theorem lmLoopN_nan_error_exits_witness :
    lmLoopN cfgWitnessC5 ⟨fun _ => RN.fin 1, RN.fin 1, 1⟩ 3 (97 + 1) =
      Except.ok (lmNewParamsN cfgWitnessC5 ⟨fun _ => RN.fin 1, RN.fin 1, 1⟩, RN.nan, 3) :=
  lmLoopN_nan_error_exits cfgWitnessC5 ⟨fun _ => RN.fin 1, RN.fin 1, 1⟩ 3 97
    (by decide) (by decide)

end LM
